import Mathlib

set_option maxRecDepth 16000

/-!
Verification of the string-similarity utilities of the `facebook-crawler`
repository (`utils.py`).

Python strings are modelled as `List Char` (sequences of code points).
Floating-point scores are modelled as exact rationals (`ℚ`).
A Python function that can raise an exception is modelled as returning
`Option`, with `none` standing for a raised exception.
Python's `str.upper()` is modelled by the full per-code-point uppercase
mapping of CPython's Unicode database (including the one-to-many special
casings), and the whitespace class shared by the regex `\s` and
`str.strip()` by the exact CPython whitespace set.
-/

namespace CrawlerUtils

/-- Python's whitespace test on code points: the exact set matched by the
regex `\s`, stripped by `str.strip()`, and reported by `str.isspace()` in
CPython — tab through carriage return, the ASCII separators 28-31, space,
NEL, NBSP, and the Unicode space and line separators. -/
def isWsNat (n : ℕ) : Bool :=
  decide ((9 ≤ n ∧ n ≤ 13) ∨ (28 ≤ n ∧ n ≤ 32) ∨ n = 0x85 ∨ n = 0xa0 ∨
    n = 0x1680 ∨ (0x2000 ≤ n ∧ n ≤ 0x200a) ∨ n = 0x2028 ∨ n = 0x2029 ∨
    n = 0x202f ∨ n = 0x205f ∨ n = 0x3000)

/-- Whitespace characters of Python: matched by `\s` and stripped by
`str.strip()`. -/
def isPySpace (c : Char) : Bool := isWsNat c.toNat

/-- CJK ideographs recognised by the regex `[一-鿿]` in
`extract_chinese_english_parts`. -/
def isChinese (c : Char) : Bool :=
  decide (0x4e00 ≤ c.toNat ∧ c.toNat ≤ 0x9fff)

/-- ASCII letters recognised by the regex `[a-zA-Z]` in
`extract_chinese_english_parts`. -/
def isEnglish (c : Char) : Bool :=
  decide ((97 ≤ c.toNat ∧ c.toNat ≤ 122) ∨ (65 ≤ c.toNat ∧ c.toNat ≤ 90))

set_option maxHeartbeats 2000000 in
/-- The uppercase mapping of Python's `str.upper()`: every code point whose
uppercase form differs from itself, paired with the code points of its
uppercase form (one to three characters, e.g. `0xe9 → 0xc9` for `é → É` and
`0xdf → SS` for `ß`), enumerated from CPython's Unicode database.  Code
points not listed are left unchanged by `str.upper()`. -/
def upperTable : List (ℕ × List ℕ) := [
  (0x61, [0x41]), (0x62, [0x42]), (0x63, [0x43]), (0x64, [0x44]),
  (0x65, [0x45]), (0x66, [0x46]), (0x67, [0x47]), (0x68, [0x48]),
  (0x69, [0x49]), (0x6a, [0x4a]), (0x6b, [0x4b]), (0x6c, [0x4c]),
  (0x6d, [0x4d]), (0x6e, [0x4e]), (0x6f, [0x4f]), (0x70, [0x50]),
  (0x71, [0x51]), (0x72, [0x52]), (0x73, [0x53]), (0x74, [0x54]),
  (0x75, [0x55]), (0x76, [0x56]), (0x77, [0x57]), (0x78, [0x58]),
  (0x79, [0x59]), (0x7a, [0x5a]), (0xb5, [0x39c]), (0xdf, [0x53, 0x53]),
  (0xe0, [0xc0]), (0xe1, [0xc1]), (0xe2, [0xc2]), (0xe3, [0xc3]),
  (0xe4, [0xc4]), (0xe5, [0xc5]), (0xe6, [0xc6]), (0xe7, [0xc7]),
  (0xe8, [0xc8]), (0xe9, [0xc9]), (0xea, [0xca]), (0xeb, [0xcb]),
  (0xec, [0xcc]), (0xed, [0xcd]), (0xee, [0xce]), (0xef, [0xcf]),
  (0xf0, [0xd0]), (0xf1, [0xd1]), (0xf2, [0xd2]), (0xf3, [0xd3]),
  (0xf4, [0xd4]), (0xf5, [0xd5]), (0xf6, [0xd6]), (0xf8, [0xd8]),
  (0xf9, [0xd9]), (0xfa, [0xda]), (0xfb, [0xdb]), (0xfc, [0xdc]),
  (0xfd, [0xdd]), (0xfe, [0xde]), (0xff, [0x178]), (0x101, [0x100]),
  (0x103, [0x102]), (0x105, [0x104]), (0x107, [0x106]), (0x109, [0x108]),
  (0x10b, [0x10a]), (0x10d, [0x10c]), (0x10f, [0x10e]), (0x111, [0x110]),
  (0x113, [0x112]), (0x115, [0x114]), (0x117, [0x116]), (0x119, [0x118]),
  (0x11b, [0x11a]), (0x11d, [0x11c]), (0x11f, [0x11e]), (0x121, [0x120]),
  (0x123, [0x122]), (0x125, [0x124]), (0x127, [0x126]), (0x129, [0x128]),
  (0x12b, [0x12a]), (0x12d, [0x12c]), (0x12f, [0x12e]), (0x131, [0x49]),
  (0x133, [0x132]), (0x135, [0x134]), (0x137, [0x136]), (0x13a, [0x139]),
  (0x13c, [0x13b]), (0x13e, [0x13d]), (0x140, [0x13f]), (0x142, [0x141]),
  (0x144, [0x143]), (0x146, [0x145]), (0x148, [0x147]), (0x149, [0x2bc, 0x4e]),
  (0x14b, [0x14a]), (0x14d, [0x14c]), (0x14f, [0x14e]), (0x151, [0x150]),
  (0x153, [0x152]), (0x155, [0x154]), (0x157, [0x156]), (0x159, [0x158]),
  (0x15b, [0x15a]), (0x15d, [0x15c]), (0x15f, [0x15e]), (0x161, [0x160]),
  (0x163, [0x162]), (0x165, [0x164]), (0x167, [0x166]), (0x169, [0x168]),
  (0x16b, [0x16a]), (0x16d, [0x16c]), (0x16f, [0x16e]), (0x171, [0x170]),
  (0x173, [0x172]), (0x175, [0x174]), (0x177, [0x176]), (0x17a, [0x179]),
  (0x17c, [0x17b]), (0x17e, [0x17d]), (0x17f, [0x53]), (0x180, [0x243]),
  (0x183, [0x182]), (0x185, [0x184]), (0x188, [0x187]), (0x18c, [0x18b]),
  (0x192, [0x191]), (0x195, [0x1f6]), (0x199, [0x198]), (0x19a, [0x23d]),
  (0x19e, [0x220]), (0x1a1, [0x1a0]), (0x1a3, [0x1a2]), (0x1a5, [0x1a4]),
  (0x1a8, [0x1a7]), (0x1ad, [0x1ac]), (0x1b0, [0x1af]), (0x1b4, [0x1b3]),
  (0x1b6, [0x1b5]), (0x1b9, [0x1b8]), (0x1bd, [0x1bc]), (0x1bf, [0x1f7]),
  (0x1c5, [0x1c4]), (0x1c6, [0x1c4]), (0x1c8, [0x1c7]), (0x1c9, [0x1c7]),
  (0x1cb, [0x1ca]), (0x1cc, [0x1ca]), (0x1ce, [0x1cd]), (0x1d0, [0x1cf]),
  (0x1d2, [0x1d1]), (0x1d4, [0x1d3]), (0x1d6, [0x1d5]), (0x1d8, [0x1d7]),
  (0x1da, [0x1d9]), (0x1dc, [0x1db]), (0x1dd, [0x18e]), (0x1df, [0x1de]),
  (0x1e1, [0x1e0]), (0x1e3, [0x1e2]), (0x1e5, [0x1e4]), (0x1e7, [0x1e6]),
  (0x1e9, [0x1e8]), (0x1eb, [0x1ea]), (0x1ed, [0x1ec]), (0x1ef, [0x1ee]),
  (0x1f0, [0x4a, 0x30c]), (0x1f2, [0x1f1]), (0x1f3, [0x1f1]), (0x1f5, [0x1f4]),
  (0x1f9, [0x1f8]), (0x1fb, [0x1fa]), (0x1fd, [0x1fc]), (0x1ff, [0x1fe]),
  (0x201, [0x200]), (0x203, [0x202]), (0x205, [0x204]), (0x207, [0x206]),
  (0x209, [0x208]), (0x20b, [0x20a]), (0x20d, [0x20c]), (0x20f, [0x20e]),
  (0x211, [0x210]), (0x213, [0x212]), (0x215, [0x214]), (0x217, [0x216]),
  (0x219, [0x218]), (0x21b, [0x21a]), (0x21d, [0x21c]), (0x21f, [0x21e]),
  (0x223, [0x222]), (0x225, [0x224]), (0x227, [0x226]), (0x229, [0x228]),
  (0x22b, [0x22a]), (0x22d, [0x22c]), (0x22f, [0x22e]), (0x231, [0x230]),
  (0x233, [0x232]), (0x23c, [0x23b]), (0x23f, [0x2c7e]), (0x240, [0x2c7f]),
  (0x242, [0x241]), (0x247, [0x246]), (0x249, [0x248]), (0x24b, [0x24a]),
  (0x24d, [0x24c]), (0x24f, [0x24e]), (0x250, [0x2c6f]), (0x251, [0x2c6d]),
  (0x252, [0x2c70]), (0x253, [0x181]), (0x254, [0x186]), (0x256, [0x189]),
  (0x257, [0x18a]), (0x259, [0x18f]), (0x25b, [0x190]), (0x25c, [0xa7ab]),
  (0x260, [0x193]), (0x261, [0xa7ac]), (0x263, [0x194]), (0x265, [0xa78d]),
  (0x266, [0xa7aa]), (0x268, [0x197]), (0x269, [0x196]), (0x26a, [0xa7ae]),
  (0x26b, [0x2c62]), (0x26c, [0xa7ad]), (0x26f, [0x19c]), (0x271, [0x2c6e]),
  (0x272, [0x19d]), (0x275, [0x19f]), (0x27d, [0x2c64]), (0x280, [0x1a6]),
  (0x282, [0xa7c5]), (0x283, [0x1a9]), (0x287, [0xa7b1]), (0x288, [0x1ae]),
  (0x289, [0x244]), (0x28a, [0x1b1]), (0x28b, [0x1b2]), (0x28c, [0x245]),
  (0x292, [0x1b7]), (0x29d, [0xa7b2]), (0x29e, [0xa7b0]), (0x345, [0x399]),
  (0x371, [0x370]), (0x373, [0x372]), (0x377, [0x376]), (0x37b, [0x3fd]),
  (0x37c, [0x3fe]), (0x37d, [0x3ff]), (0x390, [0x399, 0x308, 0x301]), (0x3ac, [0x386]),
  (0x3ad, [0x388]), (0x3ae, [0x389]), (0x3af, [0x38a]), (0x3b0, [0x3a5, 0x308, 0x301]),
  (0x3b1, [0x391]), (0x3b2, [0x392]), (0x3b3, [0x393]), (0x3b4, [0x394]),
  (0x3b5, [0x395]), (0x3b6, [0x396]), (0x3b7, [0x397]), (0x3b8, [0x398]),
  (0x3b9, [0x399]), (0x3ba, [0x39a]), (0x3bb, [0x39b]), (0x3bc, [0x39c]),
  (0x3bd, [0x39d]), (0x3be, [0x39e]), (0x3bf, [0x39f]), (0x3c0, [0x3a0]),
  (0x3c1, [0x3a1]), (0x3c2, [0x3a3]), (0x3c3, [0x3a3]), (0x3c4, [0x3a4]),
  (0x3c5, [0x3a5]), (0x3c6, [0x3a6]), (0x3c7, [0x3a7]), (0x3c8, [0x3a8]),
  (0x3c9, [0x3a9]), (0x3ca, [0x3aa]), (0x3cb, [0x3ab]), (0x3cc, [0x38c]),
  (0x3cd, [0x38e]), (0x3ce, [0x38f]), (0x3d0, [0x392]), (0x3d1, [0x398]),
  (0x3d5, [0x3a6]), (0x3d6, [0x3a0]), (0x3d7, [0x3cf]), (0x3d9, [0x3d8]),
  (0x3db, [0x3da]), (0x3dd, [0x3dc]), (0x3df, [0x3de]), (0x3e1, [0x3e0]),
  (0x3e3, [0x3e2]), (0x3e5, [0x3e4]), (0x3e7, [0x3e6]), (0x3e9, [0x3e8]),
  (0x3eb, [0x3ea]), (0x3ed, [0x3ec]), (0x3ef, [0x3ee]), (0x3f0, [0x39a]),
  (0x3f1, [0x3a1]), (0x3f2, [0x3f9]), (0x3f3, [0x37f]), (0x3f5, [0x395]),
  (0x3f8, [0x3f7]), (0x3fb, [0x3fa]), (0x430, [0x410]), (0x431, [0x411]),
  (0x432, [0x412]), (0x433, [0x413]), (0x434, [0x414]), (0x435, [0x415]),
  (0x436, [0x416]), (0x437, [0x417]), (0x438, [0x418]), (0x439, [0x419]),
  (0x43a, [0x41a]), (0x43b, [0x41b]), (0x43c, [0x41c]), (0x43d, [0x41d]),
  (0x43e, [0x41e]), (0x43f, [0x41f]), (0x440, [0x420]), (0x441, [0x421]),
  (0x442, [0x422]), (0x443, [0x423]), (0x444, [0x424]), (0x445, [0x425]),
  (0x446, [0x426]), (0x447, [0x427]), (0x448, [0x428]), (0x449, [0x429]),
  (0x44a, [0x42a]), (0x44b, [0x42b]), (0x44c, [0x42c]), (0x44d, [0x42d]),
  (0x44e, [0x42e]), (0x44f, [0x42f]), (0x450, [0x400]), (0x451, [0x401]),
  (0x452, [0x402]), (0x453, [0x403]), (0x454, [0x404]), (0x455, [0x405]),
  (0x456, [0x406]), (0x457, [0x407]), (0x458, [0x408]), (0x459, [0x409]),
  (0x45a, [0x40a]), (0x45b, [0x40b]), (0x45c, [0x40c]), (0x45d, [0x40d]),
  (0x45e, [0x40e]), (0x45f, [0x40f]), (0x461, [0x460]), (0x463, [0x462]),
  (0x465, [0x464]), (0x467, [0x466]), (0x469, [0x468]), (0x46b, [0x46a]),
  (0x46d, [0x46c]), (0x46f, [0x46e]), (0x471, [0x470]), (0x473, [0x472]),
  (0x475, [0x474]), (0x477, [0x476]), (0x479, [0x478]), (0x47b, [0x47a]),
  (0x47d, [0x47c]), (0x47f, [0x47e]), (0x481, [0x480]), (0x48b, [0x48a]),
  (0x48d, [0x48c]), (0x48f, [0x48e]), (0x491, [0x490]), (0x493, [0x492]),
  (0x495, [0x494]), (0x497, [0x496]), (0x499, [0x498]), (0x49b, [0x49a]),
  (0x49d, [0x49c]), (0x49f, [0x49e]), (0x4a1, [0x4a0]), (0x4a3, [0x4a2]),
  (0x4a5, [0x4a4]), (0x4a7, [0x4a6]), (0x4a9, [0x4a8]), (0x4ab, [0x4aa]),
  (0x4ad, [0x4ac]), (0x4af, [0x4ae]), (0x4b1, [0x4b0]), (0x4b3, [0x4b2]),
  (0x4b5, [0x4b4]), (0x4b7, [0x4b6]), (0x4b9, [0x4b8]), (0x4bb, [0x4ba]),
  (0x4bd, [0x4bc]), (0x4bf, [0x4be]), (0x4c2, [0x4c1]), (0x4c4, [0x4c3]),
  (0x4c6, [0x4c5]), (0x4c8, [0x4c7]), (0x4ca, [0x4c9]), (0x4cc, [0x4cb]),
  (0x4ce, [0x4cd]), (0x4cf, [0x4c0]), (0x4d1, [0x4d0]), (0x4d3, [0x4d2]),
  (0x4d5, [0x4d4]), (0x4d7, [0x4d6]), (0x4d9, [0x4d8]), (0x4db, [0x4da]),
  (0x4dd, [0x4dc]), (0x4df, [0x4de]), (0x4e1, [0x4e0]), (0x4e3, [0x4e2]),
  (0x4e5, [0x4e4]), (0x4e7, [0x4e6]), (0x4e9, [0x4e8]), (0x4eb, [0x4ea]),
  (0x4ed, [0x4ec]), (0x4ef, [0x4ee]), (0x4f1, [0x4f0]), (0x4f3, [0x4f2]),
  (0x4f5, [0x4f4]), (0x4f7, [0x4f6]), (0x4f9, [0x4f8]), (0x4fb, [0x4fa]),
  (0x4fd, [0x4fc]), (0x4ff, [0x4fe]), (0x501, [0x500]), (0x503, [0x502]),
  (0x505, [0x504]), (0x507, [0x506]), (0x509, [0x508]), (0x50b, [0x50a]),
  (0x50d, [0x50c]), (0x50f, [0x50e]), (0x511, [0x510]), (0x513, [0x512]),
  (0x515, [0x514]), (0x517, [0x516]), (0x519, [0x518]), (0x51b, [0x51a]),
  (0x51d, [0x51c]), (0x51f, [0x51e]), (0x521, [0x520]), (0x523, [0x522]),
  (0x525, [0x524]), (0x527, [0x526]), (0x529, [0x528]), (0x52b, [0x52a]),
  (0x52d, [0x52c]), (0x52f, [0x52e]), (0x561, [0x531]), (0x562, [0x532]),
  (0x563, [0x533]), (0x564, [0x534]), (0x565, [0x535]), (0x566, [0x536]),
  (0x567, [0x537]), (0x568, [0x538]), (0x569, [0x539]), (0x56a, [0x53a]),
  (0x56b, [0x53b]), (0x56c, [0x53c]), (0x56d, [0x53d]), (0x56e, [0x53e]),
  (0x56f, [0x53f]), (0x570, [0x540]), (0x571, [0x541]), (0x572, [0x542]),
  (0x573, [0x543]), (0x574, [0x544]), (0x575, [0x545]), (0x576, [0x546]),
  (0x577, [0x547]), (0x578, [0x548]), (0x579, [0x549]), (0x57a, [0x54a]),
  (0x57b, [0x54b]), (0x57c, [0x54c]), (0x57d, [0x54d]), (0x57e, [0x54e]),
  (0x57f, [0x54f]), (0x580, [0x550]), (0x581, [0x551]), (0x582, [0x552]),
  (0x583, [0x553]), (0x584, [0x554]), (0x585, [0x555]), (0x586, [0x556]),
  (0x587, [0x535, 0x552]), (0x10d0, [0x1c90]), (0x10d1, [0x1c91]), (0x10d2, [0x1c92]),
  (0x10d3, [0x1c93]), (0x10d4, [0x1c94]), (0x10d5, [0x1c95]), (0x10d6, [0x1c96]),
  (0x10d7, [0x1c97]), (0x10d8, [0x1c98]), (0x10d9, [0x1c99]), (0x10da, [0x1c9a]),
  (0x10db, [0x1c9b]), (0x10dc, [0x1c9c]), (0x10dd, [0x1c9d]), (0x10de, [0x1c9e]),
  (0x10df, [0x1c9f]), (0x10e0, [0x1ca0]), (0x10e1, [0x1ca1]), (0x10e2, [0x1ca2]),
  (0x10e3, [0x1ca3]), (0x10e4, [0x1ca4]), (0x10e5, [0x1ca5]), (0x10e6, [0x1ca6]),
  (0x10e7, [0x1ca7]), (0x10e8, [0x1ca8]), (0x10e9, [0x1ca9]), (0x10ea, [0x1caa]),
  (0x10eb, [0x1cab]), (0x10ec, [0x1cac]), (0x10ed, [0x1cad]), (0x10ee, [0x1cae]),
  (0x10ef, [0x1caf]), (0x10f0, [0x1cb0]), (0x10f1, [0x1cb1]), (0x10f2, [0x1cb2]),
  (0x10f3, [0x1cb3]), (0x10f4, [0x1cb4]), (0x10f5, [0x1cb5]), (0x10f6, [0x1cb6]),
  (0x10f7, [0x1cb7]), (0x10f8, [0x1cb8]), (0x10f9, [0x1cb9]), (0x10fa, [0x1cba]),
  (0x10fd, [0x1cbd]), (0x10fe, [0x1cbe]), (0x10ff, [0x1cbf]), (0x13f8, [0x13f0]),
  (0x13f9, [0x13f1]), (0x13fa, [0x13f2]), (0x13fb, [0x13f3]), (0x13fc, [0x13f4]),
  (0x13fd, [0x13f5]), (0x1c80, [0x412]), (0x1c81, [0x414]), (0x1c82, [0x41e]),
  (0x1c83, [0x421]), (0x1c84, [0x422]), (0x1c85, [0x422]), (0x1c86, [0x42a]),
  (0x1c87, [0x462]), (0x1c88, [0xa64a]), (0x1d79, [0xa77d]), (0x1d7d, [0x2c63]),
  (0x1d8e, [0xa7c6]), (0x1e01, [0x1e00]), (0x1e03, [0x1e02]), (0x1e05, [0x1e04]),
  (0x1e07, [0x1e06]), (0x1e09, [0x1e08]), (0x1e0b, [0x1e0a]), (0x1e0d, [0x1e0c]),
  (0x1e0f, [0x1e0e]), (0x1e11, [0x1e10]), (0x1e13, [0x1e12]), (0x1e15, [0x1e14]),
  (0x1e17, [0x1e16]), (0x1e19, [0x1e18]), (0x1e1b, [0x1e1a]), (0x1e1d, [0x1e1c]),
  (0x1e1f, [0x1e1e]), (0x1e21, [0x1e20]), (0x1e23, [0x1e22]), (0x1e25, [0x1e24]),
  (0x1e27, [0x1e26]), (0x1e29, [0x1e28]), (0x1e2b, [0x1e2a]), (0x1e2d, [0x1e2c]),
  (0x1e2f, [0x1e2e]), (0x1e31, [0x1e30]), (0x1e33, [0x1e32]), (0x1e35, [0x1e34]),
  (0x1e37, [0x1e36]), (0x1e39, [0x1e38]), (0x1e3b, [0x1e3a]), (0x1e3d, [0x1e3c]),
  (0x1e3f, [0x1e3e]), (0x1e41, [0x1e40]), (0x1e43, [0x1e42]), (0x1e45, [0x1e44]),
  (0x1e47, [0x1e46]), (0x1e49, [0x1e48]), (0x1e4b, [0x1e4a]), (0x1e4d, [0x1e4c]),
  (0x1e4f, [0x1e4e]), (0x1e51, [0x1e50]), (0x1e53, [0x1e52]), (0x1e55, [0x1e54]),
  (0x1e57, [0x1e56]), (0x1e59, [0x1e58]), (0x1e5b, [0x1e5a]), (0x1e5d, [0x1e5c]),
  (0x1e5f, [0x1e5e]), (0x1e61, [0x1e60]), (0x1e63, [0x1e62]), (0x1e65, [0x1e64]),
  (0x1e67, [0x1e66]), (0x1e69, [0x1e68]), (0x1e6b, [0x1e6a]), (0x1e6d, [0x1e6c]),
  (0x1e6f, [0x1e6e]), (0x1e71, [0x1e70]), (0x1e73, [0x1e72]), (0x1e75, [0x1e74]),
  (0x1e77, [0x1e76]), (0x1e79, [0x1e78]), (0x1e7b, [0x1e7a]), (0x1e7d, [0x1e7c]),
  (0x1e7f, [0x1e7e]), (0x1e81, [0x1e80]), (0x1e83, [0x1e82]), (0x1e85, [0x1e84]),
  (0x1e87, [0x1e86]), (0x1e89, [0x1e88]), (0x1e8b, [0x1e8a]), (0x1e8d, [0x1e8c]),
  (0x1e8f, [0x1e8e]), (0x1e91, [0x1e90]), (0x1e93, [0x1e92]), (0x1e95, [0x1e94]),
  (0x1e96, [0x48, 0x331]), (0x1e97, [0x54, 0x308]), (0x1e98, [0x57, 0x30a]), (0x1e99, [0x59, 0x30a]),
  (0x1e9a, [0x41, 0x2be]), (0x1e9b, [0x1e60]), (0x1ea1, [0x1ea0]), (0x1ea3, [0x1ea2]),
  (0x1ea5, [0x1ea4]), (0x1ea7, [0x1ea6]), (0x1ea9, [0x1ea8]), (0x1eab, [0x1eaa]),
  (0x1ead, [0x1eac]), (0x1eaf, [0x1eae]), (0x1eb1, [0x1eb0]), (0x1eb3, [0x1eb2]),
  (0x1eb5, [0x1eb4]), (0x1eb7, [0x1eb6]), (0x1eb9, [0x1eb8]), (0x1ebb, [0x1eba]),
  (0x1ebd, [0x1ebc]), (0x1ebf, [0x1ebe]), (0x1ec1, [0x1ec0]), (0x1ec3, [0x1ec2]),
  (0x1ec5, [0x1ec4]), (0x1ec7, [0x1ec6]), (0x1ec9, [0x1ec8]), (0x1ecb, [0x1eca]),
  (0x1ecd, [0x1ecc]), (0x1ecf, [0x1ece]), (0x1ed1, [0x1ed0]), (0x1ed3, [0x1ed2]),
  (0x1ed5, [0x1ed4]), (0x1ed7, [0x1ed6]), (0x1ed9, [0x1ed8]), (0x1edb, [0x1eda]),
  (0x1edd, [0x1edc]), (0x1edf, [0x1ede]), (0x1ee1, [0x1ee0]), (0x1ee3, [0x1ee2]),
  (0x1ee5, [0x1ee4]), (0x1ee7, [0x1ee6]), (0x1ee9, [0x1ee8]), (0x1eeb, [0x1eea]),
  (0x1eed, [0x1eec]), (0x1eef, [0x1eee]), (0x1ef1, [0x1ef0]), (0x1ef3, [0x1ef2]),
  (0x1ef5, [0x1ef4]), (0x1ef7, [0x1ef6]), (0x1ef9, [0x1ef8]), (0x1efb, [0x1efa]),
  (0x1efd, [0x1efc]), (0x1eff, [0x1efe]), (0x1f00, [0x1f08]), (0x1f01, [0x1f09]),
  (0x1f02, [0x1f0a]), (0x1f03, [0x1f0b]), (0x1f04, [0x1f0c]), (0x1f05, [0x1f0d]),
  (0x1f06, [0x1f0e]), (0x1f07, [0x1f0f]), (0x1f10, [0x1f18]), (0x1f11, [0x1f19]),
  (0x1f12, [0x1f1a]), (0x1f13, [0x1f1b]), (0x1f14, [0x1f1c]), (0x1f15, [0x1f1d]),
  (0x1f20, [0x1f28]), (0x1f21, [0x1f29]), (0x1f22, [0x1f2a]), (0x1f23, [0x1f2b]),
  (0x1f24, [0x1f2c]), (0x1f25, [0x1f2d]), (0x1f26, [0x1f2e]), (0x1f27, [0x1f2f]),
  (0x1f30, [0x1f38]), (0x1f31, [0x1f39]), (0x1f32, [0x1f3a]), (0x1f33, [0x1f3b]),
  (0x1f34, [0x1f3c]), (0x1f35, [0x1f3d]), (0x1f36, [0x1f3e]), (0x1f37, [0x1f3f]),
  (0x1f40, [0x1f48]), (0x1f41, [0x1f49]), (0x1f42, [0x1f4a]), (0x1f43, [0x1f4b]),
  (0x1f44, [0x1f4c]), (0x1f45, [0x1f4d]), (0x1f50, [0x3a5, 0x313]), (0x1f51, [0x1f59]),
  (0x1f52, [0x3a5, 0x313, 0x300]), (0x1f53, [0x1f5b]), (0x1f54, [0x3a5, 0x313, 0x301]), (0x1f55, [0x1f5d]),
  (0x1f56, [0x3a5, 0x313, 0x342]), (0x1f57, [0x1f5f]), (0x1f60, [0x1f68]), (0x1f61, [0x1f69]),
  (0x1f62, [0x1f6a]), (0x1f63, [0x1f6b]), (0x1f64, [0x1f6c]), (0x1f65, [0x1f6d]),
  (0x1f66, [0x1f6e]), (0x1f67, [0x1f6f]), (0x1f70, [0x1fba]), (0x1f71, [0x1fbb]),
  (0x1f72, [0x1fc8]), (0x1f73, [0x1fc9]), (0x1f74, [0x1fca]), (0x1f75, [0x1fcb]),
  (0x1f76, [0x1fda]), (0x1f77, [0x1fdb]), (0x1f78, [0x1ff8]), (0x1f79, [0x1ff9]),
  (0x1f7a, [0x1fea]), (0x1f7b, [0x1feb]), (0x1f7c, [0x1ffa]), (0x1f7d, [0x1ffb]),
  (0x1f80, [0x1f08, 0x399]), (0x1f81, [0x1f09, 0x399]), (0x1f82, [0x1f0a, 0x399]), (0x1f83, [0x1f0b, 0x399]),
  (0x1f84, [0x1f0c, 0x399]), (0x1f85, [0x1f0d, 0x399]), (0x1f86, [0x1f0e, 0x399]), (0x1f87, [0x1f0f, 0x399]),
  (0x1f88, [0x1f08, 0x399]), (0x1f89, [0x1f09, 0x399]), (0x1f8a, [0x1f0a, 0x399]), (0x1f8b, [0x1f0b, 0x399]),
  (0x1f8c, [0x1f0c, 0x399]), (0x1f8d, [0x1f0d, 0x399]), (0x1f8e, [0x1f0e, 0x399]), (0x1f8f, [0x1f0f, 0x399]),
  (0x1f90, [0x1f28, 0x399]), (0x1f91, [0x1f29, 0x399]), (0x1f92, [0x1f2a, 0x399]), (0x1f93, [0x1f2b, 0x399]),
  (0x1f94, [0x1f2c, 0x399]), (0x1f95, [0x1f2d, 0x399]), (0x1f96, [0x1f2e, 0x399]), (0x1f97, [0x1f2f, 0x399]),
  (0x1f98, [0x1f28, 0x399]), (0x1f99, [0x1f29, 0x399]), (0x1f9a, [0x1f2a, 0x399]), (0x1f9b, [0x1f2b, 0x399]),
  (0x1f9c, [0x1f2c, 0x399]), (0x1f9d, [0x1f2d, 0x399]), (0x1f9e, [0x1f2e, 0x399]), (0x1f9f, [0x1f2f, 0x399]),
  (0x1fa0, [0x1f68, 0x399]), (0x1fa1, [0x1f69, 0x399]), (0x1fa2, [0x1f6a, 0x399]), (0x1fa3, [0x1f6b, 0x399]),
  (0x1fa4, [0x1f6c, 0x399]), (0x1fa5, [0x1f6d, 0x399]), (0x1fa6, [0x1f6e, 0x399]), (0x1fa7, [0x1f6f, 0x399]),
  (0x1fa8, [0x1f68, 0x399]), (0x1fa9, [0x1f69, 0x399]), (0x1faa, [0x1f6a, 0x399]), (0x1fab, [0x1f6b, 0x399]),
  (0x1fac, [0x1f6c, 0x399]), (0x1fad, [0x1f6d, 0x399]), (0x1fae, [0x1f6e, 0x399]), (0x1faf, [0x1f6f, 0x399]),
  (0x1fb0, [0x1fb8]), (0x1fb1, [0x1fb9]), (0x1fb2, [0x1fba, 0x399]), (0x1fb3, [0x391, 0x399]),
  (0x1fb4, [0x386, 0x399]), (0x1fb6, [0x391, 0x342]), (0x1fb7, [0x391, 0x342, 0x399]), (0x1fbc, [0x391, 0x399]),
  (0x1fbe, [0x399]), (0x1fc2, [0x1fca, 0x399]), (0x1fc3, [0x397, 0x399]), (0x1fc4, [0x389, 0x399]),
  (0x1fc6, [0x397, 0x342]), (0x1fc7, [0x397, 0x342, 0x399]), (0x1fcc, [0x397, 0x399]), (0x1fd0, [0x1fd8]),
  (0x1fd1, [0x1fd9]), (0x1fd2, [0x399, 0x308, 0x300]), (0x1fd3, [0x399, 0x308, 0x301]), (0x1fd6, [0x399, 0x342]),
  (0x1fd7, [0x399, 0x308, 0x342]), (0x1fe0, [0x1fe8]), (0x1fe1, [0x1fe9]), (0x1fe2, [0x3a5, 0x308, 0x300]),
  (0x1fe3, [0x3a5, 0x308, 0x301]), (0x1fe4, [0x3a1, 0x313]), (0x1fe5, [0x1fec]), (0x1fe6, [0x3a5, 0x342]),
  (0x1fe7, [0x3a5, 0x308, 0x342]), (0x1ff2, [0x1ffa, 0x399]), (0x1ff3, [0x3a9, 0x399]), (0x1ff4, [0x38f, 0x399]),
  (0x1ff6, [0x3a9, 0x342]), (0x1ff7, [0x3a9, 0x342, 0x399]), (0x1ffc, [0x3a9, 0x399]), (0x214e, [0x2132]),
  (0x2170, [0x2160]), (0x2171, [0x2161]), (0x2172, [0x2162]), (0x2173, [0x2163]),
  (0x2174, [0x2164]), (0x2175, [0x2165]), (0x2176, [0x2166]), (0x2177, [0x2167]),
  (0x2178, [0x2168]), (0x2179, [0x2169]), (0x217a, [0x216a]), (0x217b, [0x216b]),
  (0x217c, [0x216c]), (0x217d, [0x216d]), (0x217e, [0x216e]), (0x217f, [0x216f]),
  (0x2184, [0x2183]), (0x24d0, [0x24b6]), (0x24d1, [0x24b7]), (0x24d2, [0x24b8]),
  (0x24d3, [0x24b9]), (0x24d4, [0x24ba]), (0x24d5, [0x24bb]), (0x24d6, [0x24bc]),
  (0x24d7, [0x24bd]), (0x24d8, [0x24be]), (0x24d9, [0x24bf]), (0x24da, [0x24c0]),
  (0x24db, [0x24c1]), (0x24dc, [0x24c2]), (0x24dd, [0x24c3]), (0x24de, [0x24c4]),
  (0x24df, [0x24c5]), (0x24e0, [0x24c6]), (0x24e1, [0x24c7]), (0x24e2, [0x24c8]),
  (0x24e3, [0x24c9]), (0x24e4, [0x24ca]), (0x24e5, [0x24cb]), (0x24e6, [0x24cc]),
  (0x24e7, [0x24cd]), (0x24e8, [0x24ce]), (0x24e9, [0x24cf]), (0x2c30, [0x2c00]),
  (0x2c31, [0x2c01]), (0x2c32, [0x2c02]), (0x2c33, [0x2c03]), (0x2c34, [0x2c04]),
  (0x2c35, [0x2c05]), (0x2c36, [0x2c06]), (0x2c37, [0x2c07]), (0x2c38, [0x2c08]),
  (0x2c39, [0x2c09]), (0x2c3a, [0x2c0a]), (0x2c3b, [0x2c0b]), (0x2c3c, [0x2c0c]),
  (0x2c3d, [0x2c0d]), (0x2c3e, [0x2c0e]), (0x2c3f, [0x2c0f]), (0x2c40, [0x2c10]),
  (0x2c41, [0x2c11]), (0x2c42, [0x2c12]), (0x2c43, [0x2c13]), (0x2c44, [0x2c14]),
  (0x2c45, [0x2c15]), (0x2c46, [0x2c16]), (0x2c47, [0x2c17]), (0x2c48, [0x2c18]),
  (0x2c49, [0x2c19]), (0x2c4a, [0x2c1a]), (0x2c4b, [0x2c1b]), (0x2c4c, [0x2c1c]),
  (0x2c4d, [0x2c1d]), (0x2c4e, [0x2c1e]), (0x2c4f, [0x2c1f]), (0x2c50, [0x2c20]),
  (0x2c51, [0x2c21]), (0x2c52, [0x2c22]), (0x2c53, [0x2c23]), (0x2c54, [0x2c24]),
  (0x2c55, [0x2c25]), (0x2c56, [0x2c26]), (0x2c57, [0x2c27]), (0x2c58, [0x2c28]),
  (0x2c59, [0x2c29]), (0x2c5a, [0x2c2a]), (0x2c5b, [0x2c2b]), (0x2c5c, [0x2c2c]),
  (0x2c5d, [0x2c2d]), (0x2c5e, [0x2c2e]), (0x2c5f, [0x2c2f]), (0x2c61, [0x2c60]),
  (0x2c65, [0x23a]), (0x2c66, [0x23e]), (0x2c68, [0x2c67]), (0x2c6a, [0x2c69]),
  (0x2c6c, [0x2c6b]), (0x2c73, [0x2c72]), (0x2c76, [0x2c75]), (0x2c81, [0x2c80]),
  (0x2c83, [0x2c82]), (0x2c85, [0x2c84]), (0x2c87, [0x2c86]), (0x2c89, [0x2c88]),
  (0x2c8b, [0x2c8a]), (0x2c8d, [0x2c8c]), (0x2c8f, [0x2c8e]), (0x2c91, [0x2c90]),
  (0x2c93, [0x2c92]), (0x2c95, [0x2c94]), (0x2c97, [0x2c96]), (0x2c99, [0x2c98]),
  (0x2c9b, [0x2c9a]), (0x2c9d, [0x2c9c]), (0x2c9f, [0x2c9e]), (0x2ca1, [0x2ca0]),
  (0x2ca3, [0x2ca2]), (0x2ca5, [0x2ca4]), (0x2ca7, [0x2ca6]), (0x2ca9, [0x2ca8]),
  (0x2cab, [0x2caa]), (0x2cad, [0x2cac]), (0x2caf, [0x2cae]), (0x2cb1, [0x2cb0]),
  (0x2cb3, [0x2cb2]), (0x2cb5, [0x2cb4]), (0x2cb7, [0x2cb6]), (0x2cb9, [0x2cb8]),
  (0x2cbb, [0x2cba]), (0x2cbd, [0x2cbc]), (0x2cbf, [0x2cbe]), (0x2cc1, [0x2cc0]),
  (0x2cc3, [0x2cc2]), (0x2cc5, [0x2cc4]), (0x2cc7, [0x2cc6]), (0x2cc9, [0x2cc8]),
  (0x2ccb, [0x2cca]), (0x2ccd, [0x2ccc]), (0x2ccf, [0x2cce]), (0x2cd1, [0x2cd0]),
  (0x2cd3, [0x2cd2]), (0x2cd5, [0x2cd4]), (0x2cd7, [0x2cd6]), (0x2cd9, [0x2cd8]),
  (0x2cdb, [0x2cda]), (0x2cdd, [0x2cdc]), (0x2cdf, [0x2cde]), (0x2ce1, [0x2ce0]),
  (0x2ce3, [0x2ce2]), (0x2cec, [0x2ceb]), (0x2cee, [0x2ced]), (0x2cf3, [0x2cf2]),
  (0x2d00, [0x10a0]), (0x2d01, [0x10a1]), (0x2d02, [0x10a2]), (0x2d03, [0x10a3]),
  (0x2d04, [0x10a4]), (0x2d05, [0x10a5]), (0x2d06, [0x10a6]), (0x2d07, [0x10a7]),
  (0x2d08, [0x10a8]), (0x2d09, [0x10a9]), (0x2d0a, [0x10aa]), (0x2d0b, [0x10ab]),
  (0x2d0c, [0x10ac]), (0x2d0d, [0x10ad]), (0x2d0e, [0x10ae]), (0x2d0f, [0x10af]),
  (0x2d10, [0x10b0]), (0x2d11, [0x10b1]), (0x2d12, [0x10b2]), (0x2d13, [0x10b3]),
  (0x2d14, [0x10b4]), (0x2d15, [0x10b5]), (0x2d16, [0x10b6]), (0x2d17, [0x10b7]),
  (0x2d18, [0x10b8]), (0x2d19, [0x10b9]), (0x2d1a, [0x10ba]), (0x2d1b, [0x10bb]),
  (0x2d1c, [0x10bc]), (0x2d1d, [0x10bd]), (0x2d1e, [0x10be]), (0x2d1f, [0x10bf]),
  (0x2d20, [0x10c0]), (0x2d21, [0x10c1]), (0x2d22, [0x10c2]), (0x2d23, [0x10c3]),
  (0x2d24, [0x10c4]), (0x2d25, [0x10c5]), (0x2d27, [0x10c7]), (0x2d2d, [0x10cd]),
  (0xa641, [0xa640]), (0xa643, [0xa642]), (0xa645, [0xa644]), (0xa647, [0xa646]),
  (0xa649, [0xa648]), (0xa64b, [0xa64a]), (0xa64d, [0xa64c]), (0xa64f, [0xa64e]),
  (0xa651, [0xa650]), (0xa653, [0xa652]), (0xa655, [0xa654]), (0xa657, [0xa656]),
  (0xa659, [0xa658]), (0xa65b, [0xa65a]), (0xa65d, [0xa65c]), (0xa65f, [0xa65e]),
  (0xa661, [0xa660]), (0xa663, [0xa662]), (0xa665, [0xa664]), (0xa667, [0xa666]),
  (0xa669, [0xa668]), (0xa66b, [0xa66a]), (0xa66d, [0xa66c]), (0xa681, [0xa680]),
  (0xa683, [0xa682]), (0xa685, [0xa684]), (0xa687, [0xa686]), (0xa689, [0xa688]),
  (0xa68b, [0xa68a]), (0xa68d, [0xa68c]), (0xa68f, [0xa68e]), (0xa691, [0xa690]),
  (0xa693, [0xa692]), (0xa695, [0xa694]), (0xa697, [0xa696]), (0xa699, [0xa698]),
  (0xa69b, [0xa69a]), (0xa723, [0xa722]), (0xa725, [0xa724]), (0xa727, [0xa726]),
  (0xa729, [0xa728]), (0xa72b, [0xa72a]), (0xa72d, [0xa72c]), (0xa72f, [0xa72e]),
  (0xa733, [0xa732]), (0xa735, [0xa734]), (0xa737, [0xa736]), (0xa739, [0xa738]),
  (0xa73b, [0xa73a]), (0xa73d, [0xa73c]), (0xa73f, [0xa73e]), (0xa741, [0xa740]),
  (0xa743, [0xa742]), (0xa745, [0xa744]), (0xa747, [0xa746]), (0xa749, [0xa748]),
  (0xa74b, [0xa74a]), (0xa74d, [0xa74c]), (0xa74f, [0xa74e]), (0xa751, [0xa750]),
  (0xa753, [0xa752]), (0xa755, [0xa754]), (0xa757, [0xa756]), (0xa759, [0xa758]),
  (0xa75b, [0xa75a]), (0xa75d, [0xa75c]), (0xa75f, [0xa75e]), (0xa761, [0xa760]),
  (0xa763, [0xa762]), (0xa765, [0xa764]), (0xa767, [0xa766]), (0xa769, [0xa768]),
  (0xa76b, [0xa76a]), (0xa76d, [0xa76c]), (0xa76f, [0xa76e]), (0xa77a, [0xa779]),
  (0xa77c, [0xa77b]), (0xa77f, [0xa77e]), (0xa781, [0xa780]), (0xa783, [0xa782]),
  (0xa785, [0xa784]), (0xa787, [0xa786]), (0xa78c, [0xa78b]), (0xa791, [0xa790]),
  (0xa793, [0xa792]), (0xa794, [0xa7c4]), (0xa797, [0xa796]), (0xa799, [0xa798]),
  (0xa79b, [0xa79a]), (0xa79d, [0xa79c]), (0xa79f, [0xa79e]), (0xa7a1, [0xa7a0]),
  (0xa7a3, [0xa7a2]), (0xa7a5, [0xa7a4]), (0xa7a7, [0xa7a6]), (0xa7a9, [0xa7a8]),
  (0xa7b5, [0xa7b4]), (0xa7b7, [0xa7b6]), (0xa7b9, [0xa7b8]), (0xa7bb, [0xa7ba]),
  (0xa7bd, [0xa7bc]), (0xa7bf, [0xa7be]), (0xa7c1, [0xa7c0]), (0xa7c3, [0xa7c2]),
  (0xa7c8, [0xa7c7]), (0xa7ca, [0xa7c9]), (0xa7d1, [0xa7d0]), (0xa7d7, [0xa7d6]),
  (0xa7d9, [0xa7d8]), (0xa7f6, [0xa7f5]), (0xab53, [0xa7b3]), (0xab70, [0x13a0]),
  (0xab71, [0x13a1]), (0xab72, [0x13a2]), (0xab73, [0x13a3]), (0xab74, [0x13a4]),
  (0xab75, [0x13a5]), (0xab76, [0x13a6]), (0xab77, [0x13a7]), (0xab78, [0x13a8]),
  (0xab79, [0x13a9]), (0xab7a, [0x13aa]), (0xab7b, [0x13ab]), (0xab7c, [0x13ac]),
  (0xab7d, [0x13ad]), (0xab7e, [0x13ae]), (0xab7f, [0x13af]), (0xab80, [0x13b0]),
  (0xab81, [0x13b1]), (0xab82, [0x13b2]), (0xab83, [0x13b3]), (0xab84, [0x13b4]),
  (0xab85, [0x13b5]), (0xab86, [0x13b6]), (0xab87, [0x13b7]), (0xab88, [0x13b8]),
  (0xab89, [0x13b9]), (0xab8a, [0x13ba]), (0xab8b, [0x13bb]), (0xab8c, [0x13bc]),
  (0xab8d, [0x13bd]), (0xab8e, [0x13be]), (0xab8f, [0x13bf]), (0xab90, [0x13c0]),
  (0xab91, [0x13c1]), (0xab92, [0x13c2]), (0xab93, [0x13c3]), (0xab94, [0x13c4]),
  (0xab95, [0x13c5]), (0xab96, [0x13c6]), (0xab97, [0x13c7]), (0xab98, [0x13c8]),
  (0xab99, [0x13c9]), (0xab9a, [0x13ca]), (0xab9b, [0x13cb]), (0xab9c, [0x13cc]),
  (0xab9d, [0x13cd]), (0xab9e, [0x13ce]), (0xab9f, [0x13cf]), (0xaba0, [0x13d0]),
  (0xaba1, [0x13d1]), (0xaba2, [0x13d2]), (0xaba3, [0x13d3]), (0xaba4, [0x13d4]),
  (0xaba5, [0x13d5]), (0xaba6, [0x13d6]), (0xaba7, [0x13d7]), (0xaba8, [0x13d8]),
  (0xaba9, [0x13d9]), (0xabaa, [0x13da]), (0xabab, [0x13db]), (0xabac, [0x13dc]),
  (0xabad, [0x13dd]), (0xabae, [0x13de]), (0xabaf, [0x13df]), (0xabb0, [0x13e0]),
  (0xabb1, [0x13e1]), (0xabb2, [0x13e2]), (0xabb3, [0x13e3]), (0xabb4, [0x13e4]),
  (0xabb5, [0x13e5]), (0xabb6, [0x13e6]), (0xabb7, [0x13e7]), (0xabb8, [0x13e8]),
  (0xabb9, [0x13e9]), (0xabba, [0x13ea]), (0xabbb, [0x13eb]), (0xabbc, [0x13ec]),
  (0xabbd, [0x13ed]), (0xabbe, [0x13ee]), (0xabbf, [0x13ef]), (0xfb00, [0x46, 0x46]),
  (0xfb01, [0x46, 0x49]), (0xfb02, [0x46, 0x4c]), (0xfb03, [0x46, 0x46, 0x49]), (0xfb04, [0x46, 0x46, 0x4c]),
  (0xfb05, [0x53, 0x54]), (0xfb06, [0x53, 0x54]), (0xfb13, [0x544, 0x546]), (0xfb14, [0x544, 0x535]),
  (0xfb15, [0x544, 0x53b]), (0xfb16, [0x54e, 0x546]), (0xfb17, [0x544, 0x53d]), (0xff41, [0xff21]),
  (0xff42, [0xff22]), (0xff43, [0xff23]), (0xff44, [0xff24]), (0xff45, [0xff25]),
  (0xff46, [0xff26]), (0xff47, [0xff27]), (0xff48, [0xff28]), (0xff49, [0xff29]),
  (0xff4a, [0xff2a]), (0xff4b, [0xff2b]), (0xff4c, [0xff2c]), (0xff4d, [0xff2d]),
  (0xff4e, [0xff2e]), (0xff4f, [0xff2f]), (0xff50, [0xff30]), (0xff51, [0xff31]),
  (0xff52, [0xff32]), (0xff53, [0xff33]), (0xff54, [0xff34]), (0xff55, [0xff35]),
  (0xff56, [0xff36]), (0xff57, [0xff37]), (0xff58, [0xff38]), (0xff59, [0xff39]),
  (0xff5a, [0xff3a]), (0x10428, [0x10400]), (0x10429, [0x10401]), (0x1042a, [0x10402]),
  (0x1042b, [0x10403]), (0x1042c, [0x10404]), (0x1042d, [0x10405]), (0x1042e, [0x10406]),
  (0x1042f, [0x10407]), (0x10430, [0x10408]), (0x10431, [0x10409]), (0x10432, [0x1040a]),
  (0x10433, [0x1040b]), (0x10434, [0x1040c]), (0x10435, [0x1040d]), (0x10436, [0x1040e]),
  (0x10437, [0x1040f]), (0x10438, [0x10410]), (0x10439, [0x10411]), (0x1043a, [0x10412]),
  (0x1043b, [0x10413]), (0x1043c, [0x10414]), (0x1043d, [0x10415]), (0x1043e, [0x10416]),
  (0x1043f, [0x10417]), (0x10440, [0x10418]), (0x10441, [0x10419]), (0x10442, [0x1041a]),
  (0x10443, [0x1041b]), (0x10444, [0x1041c]), (0x10445, [0x1041d]), (0x10446, [0x1041e]),
  (0x10447, [0x1041f]), (0x10448, [0x10420]), (0x10449, [0x10421]), (0x1044a, [0x10422]),
  (0x1044b, [0x10423]), (0x1044c, [0x10424]), (0x1044d, [0x10425]), (0x1044e, [0x10426]),
  (0x1044f, [0x10427]), (0x104d8, [0x104b0]), (0x104d9, [0x104b1]), (0x104da, [0x104b2]),
  (0x104db, [0x104b3]), (0x104dc, [0x104b4]), (0x104dd, [0x104b5]), (0x104de, [0x104b6]),
  (0x104df, [0x104b7]), (0x104e0, [0x104b8]), (0x104e1, [0x104b9]), (0x104e2, [0x104ba]),
  (0x104e3, [0x104bb]), (0x104e4, [0x104bc]), (0x104e5, [0x104bd]), (0x104e6, [0x104be]),
  (0x104e7, [0x104bf]), (0x104e8, [0x104c0]), (0x104e9, [0x104c1]), (0x104ea, [0x104c2]),
  (0x104eb, [0x104c3]), (0x104ec, [0x104c4]), (0x104ed, [0x104c5]), (0x104ee, [0x104c6]),
  (0x104ef, [0x104c7]), (0x104f0, [0x104c8]), (0x104f1, [0x104c9]), (0x104f2, [0x104ca]),
  (0x104f3, [0x104cb]), (0x104f4, [0x104cc]), (0x104f5, [0x104cd]), (0x104f6, [0x104ce]),
  (0x104f7, [0x104cf]), (0x104f8, [0x104d0]), (0x104f9, [0x104d1]), (0x104fa, [0x104d2]),
  (0x104fb, [0x104d3]), (0x10597, [0x10570]), (0x10598, [0x10571]), (0x10599, [0x10572]),
  (0x1059a, [0x10573]), (0x1059b, [0x10574]), (0x1059c, [0x10575]), (0x1059d, [0x10576]),
  (0x1059e, [0x10577]), (0x1059f, [0x10578]), (0x105a0, [0x10579]), (0x105a1, [0x1057a]),
  (0x105a3, [0x1057c]), (0x105a4, [0x1057d]), (0x105a5, [0x1057e]), (0x105a6, [0x1057f]),
  (0x105a7, [0x10580]), (0x105a8, [0x10581]), (0x105a9, [0x10582]), (0x105aa, [0x10583]),
  (0x105ab, [0x10584]), (0x105ac, [0x10585]), (0x105ad, [0x10586]), (0x105ae, [0x10587]),
  (0x105af, [0x10588]), (0x105b0, [0x10589]), (0x105b1, [0x1058a]), (0x105b3, [0x1058c]),
  (0x105b4, [0x1058d]), (0x105b5, [0x1058e]), (0x105b6, [0x1058f]), (0x105b7, [0x10590]),
  (0x105b8, [0x10591]), (0x105b9, [0x10592]), (0x105bb, [0x10594]), (0x105bc, [0x10595]),
  (0x10cc0, [0x10c80]), (0x10cc1, [0x10c81]), (0x10cc2, [0x10c82]), (0x10cc3, [0x10c83]),
  (0x10cc4, [0x10c84]), (0x10cc5, [0x10c85]), (0x10cc6, [0x10c86]), (0x10cc7, [0x10c87]),
  (0x10cc8, [0x10c88]), (0x10cc9, [0x10c89]), (0x10cca, [0x10c8a]), (0x10ccb, [0x10c8b]),
  (0x10ccc, [0x10c8c]), (0x10ccd, [0x10c8d]), (0x10cce, [0x10c8e]), (0x10ccf, [0x10c8f]),
  (0x10cd0, [0x10c90]), (0x10cd1, [0x10c91]), (0x10cd2, [0x10c92]), (0x10cd3, [0x10c93]),
  (0x10cd4, [0x10c94]), (0x10cd5, [0x10c95]), (0x10cd6, [0x10c96]), (0x10cd7, [0x10c97]),
  (0x10cd8, [0x10c98]), (0x10cd9, [0x10c99]), (0x10cda, [0x10c9a]), (0x10cdb, [0x10c9b]),
  (0x10cdc, [0x10c9c]), (0x10cdd, [0x10c9d]), (0x10cde, [0x10c9e]), (0x10cdf, [0x10c9f]),
  (0x10ce0, [0x10ca0]), (0x10ce1, [0x10ca1]), (0x10ce2, [0x10ca2]), (0x10ce3, [0x10ca3]),
  (0x10ce4, [0x10ca4]), (0x10ce5, [0x10ca5]), (0x10ce6, [0x10ca6]), (0x10ce7, [0x10ca7]),
  (0x10ce8, [0x10ca8]), (0x10ce9, [0x10ca9]), (0x10cea, [0x10caa]), (0x10ceb, [0x10cab]),
  (0x10cec, [0x10cac]), (0x10ced, [0x10cad]), (0x10cee, [0x10cae]), (0x10cef, [0x10caf]),
  (0x10cf0, [0x10cb0]), (0x10cf1, [0x10cb1]), (0x10cf2, [0x10cb2]), (0x118c0, [0x118a0]),
  (0x118c1, [0x118a1]), (0x118c2, [0x118a2]), (0x118c3, [0x118a3]), (0x118c4, [0x118a4]),
  (0x118c5, [0x118a5]), (0x118c6, [0x118a6]), (0x118c7, [0x118a7]), (0x118c8, [0x118a8]),
  (0x118c9, [0x118a9]), (0x118ca, [0x118aa]), (0x118cb, [0x118ab]), (0x118cc, [0x118ac]),
  (0x118cd, [0x118ad]), (0x118ce, [0x118ae]), (0x118cf, [0x118af]), (0x118d0, [0x118b0]),
  (0x118d1, [0x118b1]), (0x118d2, [0x118b2]), (0x118d3, [0x118b3]), (0x118d4, [0x118b4]),
  (0x118d5, [0x118b5]), (0x118d6, [0x118b6]), (0x118d7, [0x118b7]), (0x118d8, [0x118b8]),
  (0x118d9, [0x118b9]), (0x118da, [0x118ba]), (0x118db, [0x118bb]), (0x118dc, [0x118bc]),
  (0x118dd, [0x118bd]), (0x118de, [0x118be]), (0x118df, [0x118bf]), (0x16e60, [0x16e40]),
  (0x16e61, [0x16e41]), (0x16e62, [0x16e42]), (0x16e63, [0x16e43]), (0x16e64, [0x16e44]),
  (0x16e65, [0x16e45]), (0x16e66, [0x16e46]), (0x16e67, [0x16e47]), (0x16e68, [0x16e48]),
  (0x16e69, [0x16e49]), (0x16e6a, [0x16e4a]), (0x16e6b, [0x16e4b]), (0x16e6c, [0x16e4c]),
  (0x16e6d, [0x16e4d]), (0x16e6e, [0x16e4e]), (0x16e6f, [0x16e4f]), (0x16e70, [0x16e50]),
  (0x16e71, [0x16e51]), (0x16e72, [0x16e52]), (0x16e73, [0x16e53]), (0x16e74, [0x16e54]),
  (0x16e75, [0x16e55]), (0x16e76, [0x16e56]), (0x16e77, [0x16e57]), (0x16e78, [0x16e58]),
  (0x16e79, [0x16e59]), (0x16e7a, [0x16e5a]), (0x16e7b, [0x16e5b]), (0x16e7c, [0x16e5c]),
  (0x16e7d, [0x16e5d]), (0x16e7e, [0x16e5e]), (0x16e7f, [0x16e5f]), (0x1e922, [0x1e900]),
  (0x1e923, [0x1e901]), (0x1e924, [0x1e902]), (0x1e925, [0x1e903]), (0x1e926, [0x1e904]),
  (0x1e927, [0x1e905]), (0x1e928, [0x1e906]), (0x1e929, [0x1e907]), (0x1e92a, [0x1e908]),
  (0x1e92b, [0x1e909]), (0x1e92c, [0x1e90a]), (0x1e92d, [0x1e90b]), (0x1e92e, [0x1e90c]),
  (0x1e92f, [0x1e90d]), (0x1e930, [0x1e90e]), (0x1e931, [0x1e90f]), (0x1e932, [0x1e910]),
  (0x1e933, [0x1e911]), (0x1e934, [0x1e912]), (0x1e935, [0x1e913]), (0x1e936, [0x1e914]),
  (0x1e937, [0x1e915]), (0x1e938, [0x1e916]), (0x1e939, [0x1e917]), (0x1e93a, [0x1e918]),
  (0x1e93b, [0x1e919]), (0x1e93c, [0x1e91a]), (0x1e93d, [0x1e91b]), (0x1e93e, [0x1e91c]),
  (0x1e93f, [0x1e91d]), (0x1e940, [0x1e91e]), (0x1e941, [0x1e91f]), (0x1e942, [0x1e920]),
  (0x1e943, [0x1e921])]

/-- Python's `str.upper()` on one character: its table image when it has one,
the character itself otherwise. -/
def pyUpperChar (c : Char) : List Char :=
  match upperTable.find? (fun e => e.1 = c.toNat) with
  | some e => e.2.map Char.ofNat
  | none => [c]

/-- Python's `str.upper()` on a string: each character is replaced by its
uppercase form. -/
def pyUpperStr (s : List Char) : List Char := (s.map pyUpperChar).flatten

/-- Replace every maximal run of whitespace by a single space, as
`re.sub(r'\s+', ' ', s)` does.  The boolean flag records whether the previous
character belonged to a whitespace run. -/
def collapseGo (prevWs : Bool) : List Char → List Char
  | [] => []
  | c :: rest =>
    if isPySpace c then
      (if prevWs then collapseGo true rest else ' ' :: collapseGo true rest)
    else c :: collapseGo false rest

/-- `re.sub(r'\s+', ' ', s)`. -/
def collapseWs (s : List Char) : List Char := collapseGo false s

/-- Drop a trailing run of whitespace (the right half of `str.strip()`). -/
def stripTrail : List Char → List Char
  | [] => []
  | c :: rest =>
    let r := stripTrail rest
    if r = [] ∧ isPySpace c then [] else c :: r

/-- Python's `str.strip()`: remove leading and trailing whitespace. -/
def stripWs (s : List Char) : List Char := stripTrail (s.dropWhile isPySpace)

/-- The normalisation performed at the start of `mongo_elkan_score`:
`re.sub(r'\s+', ' ', s).upper().strip()`. -/
def normalizeStr (s : List Char) : List Char :=
  stripWs (pyUpperStr (collapseWs s))

/-- Python's `s.split(' ')`: split at every single space character; adjacent
separators and boundary separators produce empty fields, and the split of the
empty string is `[""]`. -/
def splitSp : List Char → List (List Char)
  | [] => [[]]
  | c :: rest =>
    if c = ' ' then [] :: splitSp rest
    else
      match splitSp rest with
      | [] => [[c]]
      | t :: ts => (c :: t) :: ts

/-- Collect the maximal runs of characters satisfying `p`; `cur` is the
current run, accumulated in reverse.  This models `re.findall(p+, text)`. -/
def runsGo (p : Char → Bool) (cur : List Char) : List Char → List (List Char)
  | [] => if cur = [] then [] else [cur.reverse]
  | c :: rest =>
    if p c then runsGo p (c :: cur) rest
    else if cur = [] then runsGo p [] rest
    else cur.reverse :: runsGo p [] rest

/-- The maximal runs of characters satisfying `p`, in input order:
`re.compile(p+).findall(text)`. -/
def runsOf (p : Char → Bool) (s : List Char) : List (List Char) :=
  runsGo p [] s

/-- Python's `s.split()` (no separator argument): the maximal runs of
non-whitespace characters; an all-whitespace string yields `[]`. -/
def pyWords (s : List Char) : List (List Char) :=
  runsOf (fun c => !isPySpace c) s

/-- Python's `' '.join(parts)`. -/
def joinSpace : List (List Char) → List Char
  | [] => []
  | [w] => w
  | w :: ws => w ++ ' ' :: joinSpace ws

/-- `extract_chinese_english_parts` from `utils.py`: the concatenation of the
CJK runs and the space-join of the ASCII-letter runs. -/
def extract_chinese_english_parts (text : List Char) : List Char × List Char :=
  ((runsOf isChinese text).flatten, joinSpace (runsOf isEnglish text))

/-- The sequence of Chinese characters extracted from `s` (first component of
`extract_chinese_english_parts`). -/
def chiPart (s : List Char) : List Char := (extract_chinese_english_parts s).1

/-- The space-joined English words extracted from `s` (second component of
`extract_chinese_english_parts`). -/
def engPart (s : List Char) : List Char := (extract_chinese_english_parts s).2

/-- One step of the row update in `levenshtein`'s dynamic programme: given the
remaining characters of `s2`, the corresponding slice of the previous row and
the value `last` already appended to the current row, produce the rest of the
current row.  The three candidates are `insertions = previous_row[j+1] + 1`,
`deletions = current_row[j] + 1` and
`substitutions = previous_row[j] + (c1 != c2)`, combined with `min`. -/
def nextRow (c1 : Char) : List Char → List ℕ → ℕ → List ℕ
  | [], _, last => [last]
  | c2 :: rest2, prev, last =>
    last :: nextRow c1 rest2 prev.tail
      (min (prev.tail.headD 0 + 1)
        (min (last + 1) (prev.headD 0 + (if c1 = c2 then 0 else 1))))

/-- The outer loop of `levenshtein`: `for i, c1 in enumerate(s1)`, each row
starting with `i + 1`. -/
def levLoop (s2 : List Char) : List Char → ℕ → List ℕ → List ℕ
  | [], _, prev => prev
  | c1 :: rest1, i, prev => levLoop s2 rest1 (i + 1) (nextRow c1 s2 prev (i + 1))

/-- The body of `levenshtein` after the argument swap: the empty-`s2` shortcut
followed by the dynamic programme seeded with `range(len(s2) + 1)`, returning
`previous_row[-1]`. -/
def levRun (s1 s2 : List Char) : ℕ :=
  if s2.length = 0 then s1.length
  else (levLoop s2 s1 0 (List.range (s2.length + 1))).getLastD 0

/-- `levenshtein` from `utils.py`.  The Python function returns
`levenshtein(s2, s1)` when `len(s1) < len(s2)`; that recursive call cannot
satisfy the swap condition again, so it is inlined as `levRun s2 s1`. -/
def levenshtein (s1 s2 : List Char) : ℕ :=
  if s1.length < s2.length then levRun s2 s1 else levRun s1 s2

/-- The value `1.0 - levenshtein(s1, s2) / max(len(s1), len(s2))` computed by
`levenshtein_score`, as an exact rational.  (In `ℚ` the expression is total;
the Python division raises exactly when `max(len(s1), len(s2)) == 0`, which
`levenshtein_score` accounts for.) -/
def levScoreQ (s1 s2 : List Char) : ℚ :=
  1 - (levenshtein s1 s2 : ℚ) / ((max s1.length s2.length : ℕ) : ℚ)

/-- `levenshtein_score` from `utils.py`: raises `ZeroDivisionError` (modelled
as `none`) when both inputs are empty, otherwise the similarity value. -/
def levenshtein_score (s1 s2 : List Char) : Option ℚ :=
  if max s1.length s2.length = 0 then none else some (levScoreQ s1 s2)

/-- The token set `set(s.split(' '))` built by `mongo_elkan_score` after
normalisation, modelled as a duplicate-free list (sums and maxima over it do
not depend on the iteration order of the Python set). -/
def wordSet (s : List Char) : List (List Char) :=
  (splitSp (normalizeStr s)).dedup

/-- Python's `max` on two floats, used by the inner loop of
`mongo_elkan_score`.  (Written with an explicit comparison so that it is
kernel-computable; it agrees with `max` on `ℚ`.) -/
def qmax (a b : ℚ) : ℚ := if a ≤ b then b else a

/-- The numeric value computed by `mongo_elkan_score`: the smaller token set
queries the larger one, each query word contributes its best similarity
against the reference words (a fold of `max` started at `0.0`), and the sum is
divided by the size of the reference set. -/
def mongoElkanQ (s1 s2 : List Char) : ℚ :=
  (((if (wordSet s2).length < (wordSet s1).length then wordSet s2 else wordSet s1).map
      (fun w => (if (wordSet s2).length < (wordSet s1).length then wordSet s1
          else wordSet s2).foldl (fun m v => qmax m (levScoreQ w v)) 0)).sum) /
    (((if (wordSet s2).length < (wordSet s1).length then wordSet s1
        else wordSet s2).length : ℕ) : ℚ)

/-- `mongo_elkan_score` from `utils.py`.  The computation raises (through
`levenshtein_score`) exactly when some query word and some reference word are
both empty, i.e. when the empty token lies in both sets; otherwise it returns
the Monge-Elkan value. -/
def mongo_elkan_score (s1 s2 : List Char) : Option ℚ :=
  if [] ∈ (if (wordSet s2).length < (wordSet s1).length then wordSet s2 else wordSet s1) ∧
      [] ∈ (if (wordSet s2).length < (wordSet s1).length then wordSet s1 else wordSet s2) then
    none
  else some (mongoElkanQ s1 s2)

/-- `len_chi` in `string_similarity_score`: the larger character count of the
two Chinese parts. -/
def lenChi (s1 s2 : List Char) : ℕ :=
  max (chiPart s1).length (chiPart s2).length

/-- `len_eng` in `string_similarity_score`: the larger word count
(`len(s_eng.split())`) of the two English parts. -/
def lenEng (s1 s2 : List Char) : ℕ :=
  max (pyWords (engPart s1)).length (pyWords (engPart s2)).length

/-- `string_similarity_score` from `utils.py`: the length-weighted combination
of the Chinese Levenshtein score and the English Monge-Elkan score.  `none`
models a raised exception (the final division raises `ZeroDivisionError` when
`len_chi + len_eng == 0`). -/
def string_similarity_score (s1 s2 : List Char) : Option ℚ :=
  (if 0 < lenChi s1 s2 then levenshtein_score (chiPart s1) (chiPart s2) else some 0).bind
    fun scoreChi =>
  (if 0 < lenEng s1 s2 then mongo_elkan_score (engPart s1) (engPart s2) else some 0).bind
    fun scoreEng =>
  if lenChi s1 s2 + lenEng s1 s2 = 0 then none
  else some ((scoreChi * (lenChi s1 s2 : ℚ) + scoreEng * (lenEng s1 s2 : ℚ)) /
    ((lenChi s1 s2 : ℚ) + (lenEng s1 s2 : ℚ)))

/-- `get_days_from_today` from `utils.py`.  The two library effects are
abstracted as parameters: `parsed` is the outcome of
`datetime.strptime(date_str, date_format)` (`none` when parsing raises) and
`now` is `datetime.now()`, both measured in (fractional) days since a common
epoch.  `(today_dt - date_dt).days` is the floor of the difference in days;
the bare `except:` turns any failure into `np.nan`, modelled as `none`. -/
def get_days_from_today (parsed : Option ℚ) (now : ℚ) : Option ℤ :=
  match parsed with
  | none => none
  | some d => some ⌊now - d⌋

/-- The classic Levenshtein recurrence on sequences: the reference definition
of edit distance, against which the dynamic programme of `levenshtein` is
verified. -/
def levRec : List Char → List Char → ℕ
  | [], t => t.length
  | _ :: s, [] => s.length + 1
  | x :: s, y :: t =>
    min (levRec s t + (if x = y then 0 else 1))
      (min (levRec (x :: s) t + 1) (levRec s (y :: t) + 1))

/-- A single character edit: insertion, deletion, or substitution at an
arbitrary position. -/
inductive EditStep : List Char → List Char → Prop
  | ins (p s : List Char) (c : Char) : EditStep (p ++ s) (p ++ c :: s)
  | del (p s : List Char) (c : Char) : EditStep (p ++ c :: s) (p ++ s)
  | subst (p s : List Char) (c d : Char) : EditStep (p ++ c :: s) (p ++ d :: s)

/-- `EditChain n u v` holds when `v` is reachable from `u` by `n` single
character edits. -/
inductive EditChain : ℕ → List Char → List Char → Prop
  | refl (u : List Char) : EditChain 0 u u
  | step {u v w : List Char} {n : ℕ} :
      EditStep u v → EditChain n v w → EditChain (n + 1) u w

/-- Edit distance between prefixes, expressed through the recurrence on the
reversed strings.  The rows of the dynamic programme hold values of `levP`. -/
def levP (u v : List Char) : ℕ := levRec u.reverse v.reverse

/-- The row of prefix distances: `rowOf u v rest` lists
`levP u (v ++ rest.take j)` for `j = 0 .. rest.length`. -/
def rowOf (u : List Char) : List Char → List Char → List ℕ
  | v, [] => [levP u v]
  | v, y :: rest => levP u v :: rowOf u (v ++ [y]) rest

/-- No two adjacent space characters occur in the list. -/
def noAdjSp : List Char → Prop
  | c :: d :: rest => ¬(c = ' ' ∧ d = ' ') ∧ noAdjSp (d :: rest)
  | _ => True

/-- The list does not end with a space character. -/
def noTrailSp : List Char → Prop
  | [] => True
  | [c] => c ≠ ' '
  | _ :: rest => noTrailSp rest

/-! ## The textbook Levenshtein recurrence and its edit-script semantics -/

theorem levRec_nil_left (t : List Char) : levRec [] t = t.length := by
  simp [levRec]

theorem levRec_nil_right (s : List Char) : levRec s [] = s.length := by
  cases s <;> simp [levRec]

theorem levRec_self (s : List Char) : levRec s s = 0 := by
  induction s with
  | nil => simp [levRec]
  | cons x s ih => simp [levRec, ih]

/-- Deleting the head of the first string costs at most one. -/
theorem levRec_cons_left_le (x : Char) (s t : List Char) :
    levRec (x :: s) t ≤ levRec s t + 1 := by
  cases t with
  | nil => simp [levRec_nil_right, levRec]
  | cons y t => simp only [levRec]; omega

/-- Deleting the head of the second string costs at most one. -/
theorem levRec_cons_right_le (y : Char) (s t : List Char) :
    levRec s (y :: t) ≤ levRec s t + 1 := by
  cases s with
  | nil => simp [levRec]
  | cons x s => simp only [levRec]; omega

/-- Prepending a character to the first string costs at most one. -/
theorem levRec_le_cons_left (x : Char) (s t : List Char) :
    levRec s t ≤ levRec (x :: s) t + 1 := by
  induction t with
  | nil => simp [levRec_nil_right, levRec]; omega
  | cons y t ih =>
    have h1 := levRec_cons_right_le y s t
    simp only [levRec]
    omega

/-- Prepending a character to the second string costs at most one. -/
theorem levRec_le_cons_right (y : Char) (s t : List Char) :
    levRec s t ≤ levRec s (y :: t) + 1 := by
  induction s with
  | nil => simp [levRec]; omega
  | cons x s ih =>
    have h1 := levRec_cons_left_le x s t
    simp only [levRec]
    omega

/-- Substituting the head of the first string costs at most one. -/
theorem levRec_subst_head_le (c d : Char) (s t : List Char) :
    levRec (c :: s) t ≤ levRec (d :: s) t + 1 := by
  induction t with
  | nil => simp [levRec]
  | cons y t ih =>
    have hk : (if c = y then (0 : ℕ) else 1) ≤ 1 := by split <;> omega
    simp only [levRec]
    omega

/-- The recurrence value never exceeds the longer length. -/
theorem levRec_le_max (s t : List Char) :
    levRec s t ≤ max s.length t.length := by
  induction s generalizing t with
  | nil => simp [levRec]
  | cons x s ih =>
    cases t with
    | nil => simp [levRec]
    | cons y t =>
      have h := ih t
      have hk : (if x = y then (0 : ℕ) else 1) ≤ 1 := by split <;> omega
      simp only [levRec, List.length_cons]
      omega

theorem EditChain.snoc {n : ℕ} {u v w : List Char}
    (h : EditChain n u v) : EditStep v w → EditChain (n + 1) u w := by
  induction h with
  | refl u => intro e; exact .step e (.refl w)
  | step e1 _ ih => intro e; exact .step e1 (ih e)

theorem EditChain.trans {m n : ℕ} {u v w : List Char}
    (h1 : EditChain m u v) : EditChain n v w → EditChain (m + n) u w := by
  induction h1 with
  | refl => intro h2; simpa using h2
  | step e _ ih => intro h2; rw [Nat.succ_add]; exact .step e (ih h2)

theorem editStep_cons {u v : List Char} (a : Char) (h : EditStep u v) :
    EditStep (a :: u) (a :: v) := by
  cases h with
  | ins p s c => simpa using EditStep.ins (a :: p) s c
  | del p s c => simpa using EditStep.del (a :: p) s c
  | subst p s c d => simpa using EditStep.subst (a :: p) s c d

theorem editChain_cons {n : ℕ} {u v : List Char} (a : Char)
    (h : EditChain n u v) : EditChain n (a :: u) (a :: v) := by
  induction h with
  | refl u => exact .refl (a :: u)
  | step e _ ih => exact .step (editStep_cons a e) ih

theorem editStep_symm {u v : List Char} (h : EditStep u v) : EditStep v u := by
  cases h with
  | ins p s c => exact .del p s c
  | del p s c => exact .ins p s c
  | subst p s c d => exact .subst p s d c

theorem editChain_symm {n : ℕ} {u v : List Char} (h : EditChain n u v) :
    EditChain n v u := by
  induction h with
  | refl u => exact .refl u
  | step e _ ih => exact ih.snoc (editStep_symm e)

/-- Any string is reachable from the empty string by one insertion per
character. -/
theorem editChain_nil_left (v : List Char) : EditChain v.length [] v := by
  induction v with
  | nil => exact .refl []
  | cons c v ih =>
    simpa using ih.snoc (by simpa using EditStep.ins [] v c)

/-- Any string reaches the empty string by one deletion per character. -/
theorem editChain_nil_right (u : List Char) : EditChain u.length u [] := by
  induction u with
  | nil => exact .refl []
  | cons c u ih =>
    simpa using EditChain.step (by simpa using EditStep.del [] u c) ih

/-- The recurrence value is realised by an edit chain. -/
theorem editChain_levRec : ∀ u v : List Char, EditChain (levRec u v) u v := by
  intro u
  induction u with
  | nil =>
    intro v
    simpa [levRec_nil_left] using editChain_nil_left v
  | cons x u ih =>
    intro v
    induction v with
    | nil =>
      simpa [levRec_nil_right] using editChain_nil_right (x :: u)
    | cons y v ihv =>
      have hsplit :
          levRec (x :: u) (y :: v) = levRec u v + (if x = y then 0 else 1) ∨
          levRec (x :: u) (y :: v) = levRec (x :: u) v + 1 ∨
          levRec (x :: u) (y :: v) = levRec u (y :: v) + 1 := by
        simp only [levRec]; omega
      rcases hsplit with h | h | h <;> rw [h]
      · rcases eq_or_ne x y with hxy | hxy
        · subst hxy
          simpa using editChain_cons x (ih v)
        · simp only [if_neg hxy]
          exact .step (by simpa using EditStep.subst [] u x y) (editChain_cons y (ih v))
      · exact ihv.snoc (by simpa using EditStep.ins [] v y)
      · exact .step (by simpa using EditStep.del [] u x) (ih (y :: v))

/-- Inserting a character anywhere in the first string changes the recurrence
value by at most one (both directions). -/
theorem levRec_ins_le (c : Char) :
    ∀ p s t : List Char, levRec (p ++ s) t ≤ levRec (p ++ c :: s) t + 1 := by
  intro p
  induction p with
  | nil =>
    intro s t
    simpa using levRec_le_cons_left c s t
  | cons a p ih =>
    intro s t
    induction t with
    | nil =>
      simp only [levRec_nil_right, List.length_append, List.length_cons]
      omega
    | cons y t iht =>
      have h1 := ih s t
      have h2 := ih s (y :: t)
      simp only [List.cons_append] at iht h1 h2 ⊢
      simp only [levRec]
      omega

/-- Deleting a character anywhere in the first string changes the recurrence
value by at most one. -/
theorem levRec_del_le (c : Char) :
    ∀ p s t : List Char, levRec (p ++ c :: s) t ≤ levRec (p ++ s) t + 1 := by
  intro p
  induction p with
  | nil =>
    intro s t
    simpa using levRec_cons_left_le c s t
  | cons a p ih =>
    intro s t
    induction t with
    | nil =>
      simp only [levRec_nil_right, List.length_append, List.length_cons]
      omega
    | cons y t iht =>
      have h1 := ih s t
      have h2 := ih s (y :: t)
      simp only [List.cons_append] at iht h1 h2 ⊢
      simp only [levRec]
      omega

/-- Substituting a character anywhere in the first string changes the
recurrence value by at most one. -/
theorem levRec_subst_le (c d : Char) :
    ∀ p s t : List Char, levRec (p ++ c :: s) t ≤ levRec (p ++ d :: s) t + 1 := by
  intro p
  induction p with
  | nil =>
    intro s t
    simpa using levRec_subst_head_le c d s t
  | cons a p ih =>
    intro s t
    induction t with
    | nil =>
      simp only [levRec_nil_right, List.length_append, List.length_cons]
      omega
    | cons y t iht =>
      have h1 := ih s t
      have h2 := ih s (y :: t)
      simp only [List.cons_append] at iht h1 h2 ⊢
      simp only [levRec]
      omega

/-- One edit step changes the recurrence value by at most one. -/
theorem editStep_levRec_le {u w : List Char} (e : EditStep u w)
    (t : List Char) : levRec u t ≤ levRec w t + 1 := by
  cases e with
  | ins p s c => exact levRec_ins_le c p s t
  | del p s c => exact levRec_del_le c p s t
  | subst p s c d => exact levRec_subst_le c d p s t

/-- The recurrence value is a lower bound for the length of any edit chain. -/
theorem editChain_levRec_le {n : ℕ} {u v : List Char} (h : EditChain n u v) :
    levRec u v ≤ n := by
  induction h with
  | refl u => simp [levRec_self]
  | @step u1 v1 w1 k e hc ih =>
    have h2 := editStep_levRec_le e w1
    omega

theorem editStep_rev {u v : List Char} (h : EditStep u v) :
    EditStep u.reverse v.reverse := by
  cases h with
  | ins p s c =>
    simpa [List.reverse_append] using EditStep.ins s.reverse p.reverse c
  | del p s c =>
    simpa [List.reverse_append] using EditStep.del s.reverse p.reverse c
  | subst p s c d =>
    simpa [List.reverse_append] using EditStep.subst s.reverse p.reverse c d

theorem editChain_rev {n : ℕ} {u v : List Char} (h : EditChain n u v) :
    EditChain n u.reverse v.reverse := by
  induction h with
  | refl u => exact .refl u.reverse
  | step e _ ih => exact .step (editStep_rev e) ih

/-- Edit distance is invariant under simultaneously reversing both strings. -/
theorem levRec_reverse (u v : List Char) :
    levRec u.reverse v.reverse = levRec u v := by
  apply le_antisymm
  · exact editChain_levRec_le (editChain_rev (editChain_levRec u v))
  · have h := editChain_rev (editChain_levRec u.reverse v.reverse)
    simpa using editChain_levRec_le h

/-- The recurrence is symmetric in its two arguments. -/
theorem levRec_symm (u v : List Char) : levRec u v = levRec v u := by
  apply le_antisymm
  · exact editChain_levRec_le (editChain_symm (editChain_levRec v u))
  · exact editChain_levRec_le (editChain_symm (editChain_levRec u v))

/-! ## Correctness of the dynamic programme -/

theorem levP_nil_left (v : List Char) : levP [] v = v.length := by
  simp [levP, levRec_nil_left]

theorem levP_nil_right (u : List Char) : levP u [] = u.length := by
  simp [levP, levRec_nil_right]

/-- The recurrence for `levP`, peeling the last characters. -/
theorem levP_snoc (u v : List Char) (x y : Char) :
    levP (u ++ [x]) (v ++ [y]) =
      min (levP u v + (if x = y then 0 else 1))
        (min (levP (u ++ [x]) v + 1) (levP u (v ++ [y]) + 1)) := by
  simp only [levP, List.reverse_append, List.reverse_cons, List.reverse_nil,
    List.nil_append, List.singleton_append]
  simp [levRec]

theorem rowOf_headD (u v rest : List Char) (d : ℕ) :
    (rowOf u v rest).headD d = levP u v := by
  cases rest <;> rfl

theorem rowOf_getLastD (u : List Char) :
    ∀ (rest v : List Char) (d : ℕ), (rowOf u v rest).getLastD d = levP u (v ++ rest) := by
  intro rest
  induction rest with
  | nil => intro v d; simp [rowOf]
  | cons y rest ih =>
    intro v d
    have h1 : rowOf u v (y :: rest) = levP u v :: rowOf u (v ++ [y]) rest := rfl
    rw [h1, List.getLastD_cons, ih (v ++ [y]) (levP u v)]
    simp

/-- Updating the row for `u` by the character `c` yields the row for
`u ++ [c]`. -/
theorem nextRow_rowOf (u : List Char) (c : Char) :
    ∀ rest v : List Char,
      nextRow c rest (rowOf u v rest) (levP (u ++ [c]) v) =
        rowOf (u ++ [c]) v rest := by
  intro rest
  induction rest with
  | nil => intro v; rfl
  | cons y rest ih =>
    intro v
    have hrow : rowOf u v (y :: rest) = levP u v :: rowOf u (v ++ [y]) rest := rfl
    rw [hrow]
    simp only [nextRow, List.tail_cons, List.headD_cons]
    have he :
        min ((rowOf u (v ++ [y]) rest).headD 0 + 1)
          (min (levP (u ++ [c]) v + 1)
            (levP u v + (if c = y then 0 else 1))) =
        levP (u ++ [c]) (v ++ [y]) := by
      rw [rowOf_headD, levP_snoc]
      omega
    rw [he, ih (v ++ [y])]
    rfl

/-- Running the outer loop from the row of `u` produces the row of
`u ++ s1rest`. -/
theorem levLoop_rowOf (s2 : List Char) :
    ∀ s1rest u : List Char,
      levLoop s2 s1rest u.length (rowOf u [] s2) = rowOf (u ++ s1rest) [] s2 := by
  intro s1rest
  induction s1rest with
  | nil => intro u; simp [levLoop]
  | cons c r ih =>
    intro u
    have hn : nextRow c s2 (rowOf u [] s2) (u.length + 1) = rowOf (u ++ [c]) [] s2 := by
      have h := nextRow_rowOf u c s2 []
      rwa [levP_nil_right, List.length_append, List.length_singleton] at h
    show levLoop s2 r (u.length + 1) (nextRow c s2 (rowOf u [] s2) (u.length + 1)) = _
    rw [hn]
    have h2 := ih (u ++ [c])
    rw [List.length_append, List.length_singleton] at h2
    rw [h2, List.append_assoc, List.singleton_append]

/-- The initial row `range(len(s2) + 1)` is the row of the empty prefix. -/
theorem rowOf_nil_eq :
    ∀ rest v : List Char, rowOf [] v rest = List.range' v.length (rest.length + 1) := by
  intro rest
  induction rest with
  | nil =>
    intro v
    rw [List.range'_succ]
    simp [rowOf, levP_nil_left]
  | cons y rest ih =>
    intro v
    have h1 : rowOf [] v (y :: rest) = levP [] v :: rowOf [] (v ++ [y]) rest := rfl
    rw [h1, ih (v ++ [y]), levP_nil_left, List.length_append, List.length_singleton]
    simp [List.range'_succ]

/-- The dynamic programme body computes the recurrence. -/
theorem levRun_eq (s1 s2 : List Char) : levRun s1 s2 = levRec s1 s2 := by
  unfold levRun
  by_cases h2 : s2.length = 0
  · rw [if_pos h2, List.length_eq_zero.mp h2, levRec_nil_right]
  · rw [if_neg h2]
    have hinit : List.range (s2.length + 1) = rowOf [] [] s2 := by
      rw [rowOf_nil_eq s2 [], List.range_eq_range']
      rfl
    rw [hinit]
    have hloop := levLoop_rowOf s2 s1 []
    simp only [List.length_nil, List.nil_append] at hloop
    rw [hloop, rowOf_getLastD, List.nil_append]
    rw [levP, levRec_reverse]

/-- The Python `levenshtein` computes the textbook recurrence. -/
theorem levenshtein_eq_levRec (s1 s2 : List Char) :
    levenshtein s1 s2 = levRec s1 s2 := by
  unfold levenshtein
  by_cases h : s1.length < s2.length
  · rw [if_pos h, levRun_eq, levRec_symm]
  · rw [if_neg h, levRun_eq]

/-! ## Structure of the normalised strings and their token lists -/

theorem isPySpace_space : isPySpace ' ' = true := by decide

theorem ne_space_of_not_isPySpace {c : Char} (h : ¬ isPySpace c = true) :
    c ≠ ' ' := by
  intro hc
  subst hc
  exact h isPySpace_space

/-- No key of the uppercase table is a whitespace code point. -/
theorem upperTable_keys_not_ws :
    upperTable.all (fun e => !isWsNat e.1) = true := by decide

/-- Every table image is non-empty and consists of non-whitespace characters. -/
theorem upperTable_images_not_ws :
    upperTable.all
      (fun e => !e.2.isEmpty && (e.2.map Char.ofNat).all (fun d => !isPySpace d)) = true := by
  decide

/-- `str.upper()` fixes every whitespace character. -/
theorem pyUpperChar_of_isPySpace {c : Char} (h : isPySpace c = true) :
    pyUpperChar c = [c] := by
  unfold pyUpperChar
  cases hf : upperTable.find? (fun e => e.1 = c.toNat) with
  | none => rfl
  | some e =>
    exfalso
    have hmem := List.mem_of_find?_eq_some hf
    have hpred := List.find?_some hf
    have hk := List.all_eq_true.mp upperTable_keys_not_ws e hmem
    simp only [decide_eq_true_eq] at hpred
    unfold isPySpace at h
    rw [hpred, h] at hk
    simp at hk

/-- `str.upper()` of a non-whitespace character is non-empty and contains no
whitespace character. -/
theorem pyUpperChar_not_space {c : Char} (h : ¬ isPySpace c = true) :
    pyUpperChar c ≠ [] ∧ ∀ d ∈ pyUpperChar c, ¬ isPySpace d = true := by
  unfold pyUpperChar
  cases hf : upperTable.find? (fun e => e.1 = c.toNat) with
  | none =>
    show [c] ≠ [] ∧ ∀ d ∈ [c], ¬ isPySpace d = true
    refine ⟨by simp, ?_⟩
    intro d hd
    rw [List.mem_singleton] at hd
    rw [hd]
    exact h
  | some e =>
    show e.2.map Char.ofNat ≠ [] ∧ ∀ d ∈ e.2.map Char.ofNat, ¬ isPySpace d = true
    have hmem := List.mem_of_find?_eq_some hf
    have he := List.all_eq_true.mp upperTable_images_not_ws e hmem
    rw [Bool.and_eq_true] at he
    refine ⟨?_, ?_⟩
    · intro hcon
      have h0 : e.2 = [] := by
        cases h2 : e.2 with
        | nil => rfl
        | cons a t =>
          rw [h2] at hcon
          simp at hcon
      rw [h0] at he
      simp at he
    · intro d hd
      have h2 := List.all_eq_true.mp he.2 d hd
      simp only [Bool.not_eq_true'] at h2
      simp [h2]

theorem noAdjSp_tail {c : Char} {l : List Char} (h : noAdjSp (c :: l)) :
    noAdjSp l := by
  cases l with
  | nil => trivial
  | cons d rest => exact h.2

theorem noAdjSp_cons {c : Char} {l : List Char} (hc : c ≠ ' ')
    (h : noAdjSp l) : noAdjSp (c :: l) := by
  cases l with
  | nil => trivial
  | cons d rest => exact ⟨fun hp => hc hp.1, h⟩

/-- The collapsed string has no adjacent spaces, in both flag states. -/
theorem noAdjSp_collapseGo :
    ∀ l : List Char, noAdjSp (collapseGo false l) ∧ noAdjSp (' ' :: collapseGo true l) := by
  intro l
  induction l with
  | nil => exact ⟨trivial, trivial⟩
  | cons c rest ih =>
    by_cases hsp : isPySpace c
    · simp only [collapseGo, hsp, if_true, if_false]
      exact ⟨ih.2, ih.2⟩
    · have hc := ne_space_of_not_isPySpace hsp
      simp only [collapseGo, hsp, if_false]
      refine ⟨noAdjSp_cons hc ih.1, ?_⟩
      cases hrest : collapseGo false rest with
      | nil => exact ⟨fun hp => hc hp.2, trivial⟩
      | cons e l2 =>
        refine ⟨fun hp => hc hp.2, ?_⟩
        rw [← hrest]
        exact noAdjSp_cons hc ih.1

/-- Collapsing whitespace preserves the non-whitespace content. -/
theorem collapseGo_filter :
    ∀ (l : List Char) (b : Bool),
      (collapseGo b l).filter (fun c => !isPySpace c) =
        l.filter (fun c => !isPySpace c) := by
  intro l
  induction l with
  | nil => intro b; rfl
  | cons c rest ih =>
    intro b
    by_cases hsp : isPySpace c
    · cases b <;>
        simp [collapseGo, hsp, ih, List.filter_cons, isPySpace_space]
    · simp [collapseGo, hsp, ih, List.filter_cons]

/-- `stripTrail` deletes exactly the trailing whitespace; it returns `[]` iff
everything is whitespace. -/
theorem stripTrail_eq_nil_iff :
    ∀ l : List Char, stripTrail l = [] ↔ ∀ c ∈ l, isPySpace c := by
  intro l
  induction l with
  | nil => simp [stripTrail]
  | cons c rest ih =>
    simp only [stripTrail, List.mem_cons]
    by_cases h : stripTrail rest = [] ∧ isPySpace c = true
    · rw [if_pos h]
      simp only [true_iff]
      intro x hx
      rcases hx with hx | hx
      · subst hx; exact h.2
      · exact (ih.mp h.1) x hx
    · rw [if_neg h]
      simp only [List.cons_ne_nil, false_iff]
      intro hall
      exact h ⟨ih.mpr fun x hx => hall x (Or.inr hx), hall c (Or.inl rfl)⟩

theorem noTrailSp_stripTrail : ∀ l : List Char, noTrailSp (stripTrail l) := by
  intro l
  induction l with
  | nil => trivial
  | cons c rest ih =>
    simp only [stripTrail]
    by_cases h : stripTrail rest = [] ∧ isPySpace c = true
    · rw [if_pos h]; trivial
    · rw [if_neg h]
      cases hr : stripTrail rest with
      | nil =>
        have hc : ¬ isPySpace c = true := fun hsp => h ⟨hr, hsp⟩
        exact ne_space_of_not_isPySpace hc
      | cons d r2 =>
        have heq : noTrailSp (c :: d :: r2) = noTrailSp (d :: r2) := rfl
        rw [heq, ← hr]
        exact ih

theorem stripTrail_head :
    ∀ l : List Char, stripTrail l = [] ∨ (stripTrail l).head? = l.head? := by
  intro l
  cases l with
  | nil => exact Or.inl rfl
  | cons c rest =>
    simp only [stripTrail]
    by_cases h : stripTrail rest = [] ∧ isPySpace c = true
    · rw [if_pos h]; exact Or.inl rfl
    · rw [if_neg h]; exact Or.inr rfl

theorem noAdjSp_stripTrail : ∀ l : List Char, noAdjSp l → noAdjSp (stripTrail l) := by
  intro l
  induction l with
  | nil => intro _; trivial
  | cons c rest ih =>
    intro h
    simp only [stripTrail]
    by_cases hcond : stripTrail rest = [] ∧ isPySpace c = true
    · rw [if_pos hcond]; trivial
    · rw [if_neg hcond]
      cases hr : stripTrail rest with
      | nil => trivial
      | cons d r2 =>
        have htail : noAdjSp (d :: r2) := by
          rw [← hr]; exact ih (noAdjSp_tail h)
        refine ⟨?_, htail⟩
        rintro ⟨hc, hd⟩
        cases rest with
        | nil => simp [stripTrail] at hr
        | cons e rest2 =>
          rcases stripTrail_head (e :: rest2) with h0 | h0
          · rw [h0] at hr; exact List.noConfusion hr
          · rw [hr] at h0
            simp only [List.head?_cons, Option.some.injEq] at h0
            exact h.1 ⟨hc, by rw [← h0, hd]⟩

theorem noAdjSp_dropWhile (p : Char → Bool) :
    ∀ l : List Char, noAdjSp l → noAdjSp (l.dropWhile p) := by
  intro l
  induction l with
  | nil => intro _; trivial
  | cons c rest ih =>
    intro h
    rw [List.dropWhile_cons]
    split
    · exact ih (noAdjSp_tail h)
    · exact h

theorem pyUpperStr_nil : pyUpperStr [] = [] := rfl

theorem pyUpperStr_cons (c : Char) (l : List Char) :
    pyUpperStr (c :: l) = pyUpperChar c ++ pyUpperStr l := rfl

/-- Every whitespace character surviving the collapse is a plain space. -/
theorem collapseGo_space_only :
    ∀ (l : List Char) (b : Bool), ∀ c ∈ collapseGo b l, isPySpace c = true → c = ' ' := by
  intro l
  induction l with
  | nil => intro b c hc; simp [collapseGo] at hc
  | cons a rest ih =>
    intro b c hc hws
    by_cases ha : isPySpace a
    · cases b with
      | false =>
        simp only [collapseGo, ha, if_true, Bool.false_eq_true, if_false] at hc
        rcases List.mem_cons.mp hc with h | h
        · exact h
        · exact ih true c h hws
      | true =>
        simp only [collapseGo, ha, if_true] at hc
        exact ih true c hc hws
    · simp only [collapseGo, ha, Bool.false_eq_true, if_false] at hc
      rcases List.mem_cons.mp hc with h | h
      · rw [h] at hws
        exact absurd hws ha
      · exact ih false c h hws

/-- A space-free prefix prepended to a list with no adjacent spaces still has
no adjacent spaces. -/
theorem noAdjSp_append_of :
    ∀ w z : List Char, (∀ c ∈ w, c ≠ ' ') → noAdjSp z → noAdjSp (w ++ z) := by
  intro w
  induction w with
  | nil => intro z _ hz; simpa using hz
  | cons a w ih =>
    intro z hw hz
    rw [List.cons_append]
    exact noAdjSp_cons (hw a (List.mem_cons_self a w))
      (ih z (fun c hc => hw c (List.mem_cons_of_mem a hc)) hz)

/-- Uppercasing a collapsed string (no adjacent spaces, whitespace only as
plain spaces) keeps adjacent spaces away, and cannot create a leading space. -/
theorem noAdjSp_pyUpperStr :
    ∀ l : List Char, noAdjSp l → (∀ c ∈ l, isPySpace c = true → c = ' ') →
      noAdjSp (pyUpperStr l) ∧
        ((pyUpperStr l).head? = some ' ' → l.head? = some ' ') := by
  intro l
  induction l with
  | nil => intro _ _; exact ⟨trivial, by intro h; exact h⟩
  | cons c l ih =>
    intro hadj hsp
    have hl := ih (noAdjSp_tail hadj) (fun x hx h => hsp x (List.mem_cons_of_mem c hx) h)
    rw [pyUpperStr_cons]
    by_cases hc : isPySpace c
    · have hceq : c = ' ' := hsp c (List.mem_cons_self c l) hc
      subst hceq
      rw [pyUpperChar_of_isPySpace hc, List.singleton_append]
      constructor
      · rcases hY : pyUpperStr l with _ | ⟨d, Y⟩
        · trivial
        · refine ⟨?_, by rw [← hY]; exact hl.1⟩
          rintro ⟨_, hd⟩
          have hh : (pyUpperStr l).head? = some ' ' := by rw [hY, hd]; rfl
          have hstep := hl.2 hh
          cases l with
          | nil => simp at hstep
          | cons e l2 =>
            simp only [List.head?_cons, Option.some.injEq] at hstep
            exact hadj.1 ⟨rfl, hstep⟩
      · intro _
        rfl
    · have hch := pyUpperChar_not_space hc
      constructor
      · refine noAdjSp_append_of _ _ ?_ hl.1
        intro d hd
        exact ne_space_of_not_isPySpace (hch.2 d hd)
      · intro hhead
        exfalso
        rcases hchk : pyUpperChar c with _ | ⟨d, w⟩
        · exact hch.1 hchk
        · rw [hchk, List.cons_append, List.head?_cons] at hhead
          simp only [Option.some.injEq] at hhead
          refine ne_space_of_not_isPySpace (hch.2 d ?_) hhead
          rw [hchk]
          exact List.mem_cons_self d w

/-- Uppercasing preserves the all-whitespace property in both directions. -/
theorem all_ws_pyUpperStr_iff :
    ∀ l : List Char, (∀ d ∈ pyUpperStr l, isPySpace d) ↔ (∀ c ∈ l, isPySpace c) := by
  intro l
  induction l with
  | nil => simp [pyUpperStr]
  | cons c l ih =>
    rw [pyUpperStr_cons]
    constructor
    · intro h x hx
      rcases List.mem_cons.mp hx with hx | hx
      · subst hx
        by_contra hxn
        have hch := pyUpperChar_not_space hxn
        rcases hd : pyUpperChar x with _ | ⟨d, w⟩
        · exact hch.1 hd
        · refine hch.2 d (by rw [hd]; exact List.mem_cons_self d w) ?_
          refine h d (List.mem_append_left _ ?_)
          rw [hd]
          exact List.mem_cons_self d w
      · exact ih.mp (fun d hd => h d (List.mem_append_right _ hd)) x hx
    · intro h d hd
      rcases List.mem_append.mp hd with hd | hd
      · have hc : isPySpace c = true := h c (List.mem_cons_self c l)
        rw [pyUpperChar_of_isPySpace hc] at hd
        rw [List.mem_singleton.mp hd]
        exact hc
      · exact ih.mpr (fun x hx => h x (List.mem_cons_of_mem c hx)) d hd

theorem all_ws_iff_filter_eq_nil (l : List Char) :
    (∀ c ∈ l, isPySpace c) ↔ l.filter (fun c => !isPySpace c) = [] := by
  rw [List.filter_eq_nil_iff]
  constructor
  · intro h c hc
    simp [h c hc]
  · intro h c hc
    have h2 := h c hc
    simpa using h2

/-- Collapsing whitespace preserves the all-whitespace property. -/
theorem all_ws_collapse_iff (s : List Char) (b : Bool) :
    (∀ c ∈ collapseGo b s, isPySpace c) ↔ (∀ c ∈ s, isPySpace c) := by
  rw [all_ws_iff_filter_eq_nil, all_ws_iff_filter_eq_nil, collapseGo_filter]

theorem all_ws_dropWhile_iff (l : List Char) :
    (∀ c ∈ l.dropWhile isPySpace, isPySpace c) ↔ (∀ c ∈ l, isPySpace c) := by
  constructor
  · intro h c hc
    have hsplit : c ∈ l.takeWhile isPySpace ++ l.dropWhile isPySpace := by
      rw [List.takeWhile_append_dropWhile]
      exact hc
    rcases List.mem_append.mp hsplit with h1 | h1
    · exact List.mem_takeWhile_imp h1
    · exact h c h1
  · intro h c hc
    exact h c (List.dropWhile_subset _ hc)

/-- `str.strip()` returns the empty string iff everything is whitespace. -/
theorem stripWs_eq_nil_iff (l : List Char) :
    stripWs l = [] ↔ ∀ c ∈ l, isPySpace c := by
  unfold stripWs
  rw [stripTrail_eq_nil_iff, all_ws_dropWhile_iff]

/-- The normalised string is empty exactly when the input is all whitespace. -/
theorem normalizeStr_eq_nil_iff (s : List Char) :
    normalizeStr s = [] ↔ ∀ c ∈ s, isPySpace c := by
  unfold normalizeStr collapseWs
  rw [stripWs_eq_nil_iff, all_ws_pyUpperStr_iff, all_ws_collapse_iff]

theorem splitSp_ne_nil : ∀ l : List Char, splitSp l ≠ [] := by
  intro l
  cases l with
  | nil => simp [splitSp]
  | cons c rest =>
    simp only [splitSp]
    split
    · simp
    · split <;> simp

theorem splitSp_head_ne_nil {l : List Char} (hne : l ≠ [])
    (hhead : l.head? ≠ some ' ') : ∀ t, (splitSp l).head? = some t → t ≠ [] := by
  cases l with
  | nil => exact absurd rfl hne
  | cons c rest =>
    have hc : c ≠ ' ' := by
      intro h
      exact hhead (by rw [h]; rfl)
    intro t ht
    simp only [splitSp, if_neg hc] at ht
    rcases hsp : splitSp rest with _ | ⟨t0, ts⟩
    · rw [hsp] at ht
      simp at ht
      rw [← ht]
      simp
    · rw [hsp] at ht
      simp at ht
      rw [← ht]
      simp

theorem splitSp_tail_ne_nil :
    ∀ l : List Char, noAdjSp l → noTrailSp l →
      ∀ x ∈ (splitSp l).tail, x ≠ [] := by
  intro l
  induction l with
  | nil => intro _ _ x hx; simp [splitSp] at hx
  | cons c rest ih =>
    intro hadj htrail x hx
    by_cases hc : c = ' '
    · subst hc
      simp only [splitSp, if_pos rfl, List.tail_cons] at hx
      cases rest with
      | nil => exact absurd rfl htrail
      | cons d rest2 =>
        have hd : d ≠ ' ' := fun h => hadj.1 ⟨rfl, h⟩
        have htr2 : noTrailSp (d :: rest2) := htrail
        rcases hsp : splitSp (d :: rest2) with _ | ⟨t0, ts⟩
        · exact absurd hsp (splitSp_ne_nil _)
        · rw [hsp] at hx
          rcases List.mem_cons.mp hx with hx0 | hx1
          · subst hx0
            exact splitSp_head_ne_nil (List.cons_ne_nil d rest2)
              (by simp [hd]) x (by rw [hsp]; rfl)
          · exact ih (noAdjSp_tail hadj) htr2 x (by rw [hsp]; exact hx1)
    · simp only [splitSp, if_neg hc] at hx
      rcases hsp : splitSp rest with _ | ⟨t0, ts⟩
      · exact absurd hsp (splitSp_ne_nil _)
      · rw [hsp] at hx
        simp only [List.tail_cons] at hx
        cases rest with
        | nil =>
          simp [splitSp] at hsp
          rw [hsp.2] at hx
          simp at hx
        | cons d rest2 =>
          have htr2 : noTrailSp (d :: rest2) := htrail
          refine ih (noAdjSp_tail hadj) htr2 x ?_
          rw [hsp]
          simpa using hx

/-- A non-empty string with no leading, trailing, or adjacent spaces splits
into non-empty fields. -/
theorem nil_not_mem_splitSp {l : List Char} (hne : l ≠ [])
    (hhead : l.head? ≠ some ' ') (hadj : noAdjSp l) (htrail : noTrailSp l) :
    [] ∉ splitSp l := by
  intro hmem
  rcases hsp : splitSp l with _ | ⟨t0, ts⟩
  · exact splitSp_ne_nil l hsp
  · rw [hsp] at hmem
    rcases List.mem_cons.mp hmem with h0 | h1
    · exact splitSp_head_ne_nil hne hhead t0 (by rw [hsp]; rfl) h0.symm
    · exact splitSp_tail_ne_nil l hadj htrail [] (by rw [hsp]; exact h1) rfl

/-- The empty token belongs to the token set exactly when the input is all
whitespace. -/
theorem nil_mem_wordSet_iff (s : List Char) :
    [] ∈ wordSet s ↔ ∀ c ∈ s, isPySpace c := by
  unfold wordSet
  rw [List.mem_dedup]
  constructor
  · intro hmem
    by_contra hall
    have hne : normalizeStr s ≠ [] := by
      intro h
      exact hall ((normalizeStr_eq_nil_iff s).mp h)
    -- head of the normalised string is not a space
    have hhead : (normalizeStr s).head? ≠ some ' ' := by
      unfold normalizeStr stripWs at *
      rcases stripTrail_head ((pyUpperStr (collapseWs s)).dropWhile isPySpace)
        with h0 | h0
      · exact absurd h0 hne
      · rw [h0]
        intro hcon
        rcases hdw : (pyUpperStr (collapseWs s)).dropWhile isPySpace
          with _ | ⟨d, l2⟩
        · rw [hdw] at hcon
          simp at hcon
        · rw [hdw] at hcon
          simp only [List.head?_cons, Option.some.injEq] at hcon
          have : ¬ isPySpace d = true := by
            have := List.head?_dropWhile_not isPySpace (pyUpperStr (collapseWs s))
            rw [hdw] at this
            simpa using this
          exact this (by rw [hcon]; exact isPySpace_space)
    have hadj : noAdjSp (normalizeStr s) := by
      unfold normalizeStr stripWs collapseWs
      exact noAdjSp_stripTrail _ (noAdjSp_dropWhile _ _
        (noAdjSp_pyUpperStr (collapseGo false s) (noAdjSp_collapseGo s).1
          (collapseGo_space_only s false)).1)
    have htrail : noTrailSp (normalizeStr s) := by
      unfold normalizeStr stripWs
      exact noTrailSp_stripTrail _
    exact nil_not_mem_splitSp hne hhead hadj htrail hmem
  · intro hall
    have h0 : normalizeStr s = [] := (normalizeStr_eq_nil_iff s).mpr hall
    rw [h0]
    simp [splitSp]

theorem wordSet_ne_nil (s : List Char) : wordSet s ≠ [] := by
  unfold wordSet
  rw [ne_eq, List.dedup_eq_nil]
  exact splitSp_ne_nil _

/-! ## Runs of characters and word extraction -/

/-- Concatenating the runs recovers exactly the characters satisfying `p`. -/
theorem runsGo_flatten (p : Char → Bool) :
    ∀ (l cur : List Char),
      (runsGo p cur l).flatten = cur.reverse ++ l.filter p := by
  intro l
  induction l with
  | nil =>
    intro cur
    by_cases h : cur = []
    · simp [runsGo, h]
    · simp [runsGo, h]
  | cons c rest ih =>
    intro cur
    by_cases hp : p c <;> by_cases hcur : cur = [] <;>
      simp [runsGo, hp, hcur, ih, List.filter_cons]

theorem runsOf_flatten (p : Char → Bool) (l : List Char) :
    (runsOf p l).flatten = l.filter p := by
  simpa using runsGo_flatten p l []

theorem runsGo_ne_nil (p : Char → Bool) :
    ∀ (l cur : List Char), cur ≠ [] → runsGo p cur l ≠ [] := by
  intro l
  induction l with
  | nil =>
    intro cur h
    simp [runsGo, h]
  | cons c rest ih =>
    intro cur h
    by_cases hp : p c
    · simpa [runsGo, hp] using ih (c :: cur) (by simp)
    · simp [runsGo, hp, h]

/-- There are no runs exactly when no character satisfies `p`. -/
theorem runsOf_eq_nil_iff (p : Char → Bool) :
    ∀ l : List Char, runsOf p l = [] ↔ ∀ c ∈ l, ¬ p c := by
  intro l
  unfold runsOf
  induction l with
  | nil => simp [runsGo]
  | cons c rest ih =>
    by_cases hp : p c
    · simp only [runsGo, hp, if_true]
      constructor
      · intro h
        exact absurd h (runsGo_ne_nil p rest (c :: []) (List.cons_ne_nil c []))
      · intro h
        exact absurd hp (h c (List.mem_cons_self c rest))
    · have hp2 : p c = false := by simpa using hp
      simp [runsGo, hp2, ih, hp]

/-- Every run is non-empty and consists of characters satisfying `p`. -/
theorem runsGo_runs (p : Char → Bool) :
    ∀ (l cur : List Char), (∀ c ∈ cur, p c) →
      ∀ r ∈ runsGo p cur l, r ≠ [] ∧ ∀ c ∈ r, p c := by
  intro l
  induction l with
  | nil =>
    intro cur hcur r hr
    by_cases h : cur = []
    · simp [runsGo, h] at hr
    · simp only [runsGo, if_neg h, List.mem_singleton] at hr
      subst hr
      constructor
      · simpa using h
      · intro c hc
        exact hcur c (List.mem_reverse.mp hc)
  | cons c rest ih =>
    intro cur hcur r hr
    simp only [runsGo] at hr
    by_cases hp : p c
    · rw [if_pos hp] at hr
      refine ih (c :: cur) ?_ r hr
      intro x hx
      rcases List.mem_cons.mp hx with hx | hx
      · subst hx; exact hp
      · exact hcur x hx
    · rw [if_neg hp] at hr
      by_cases hcv : cur = []
      · rw [if_pos hcv] at hr
        exact ih [] (by simp) r hr
      · rw [if_neg hcv] at hr
        rcases List.mem_cons.mp hr with hr | hr
        · subst hr
          constructor
          · simpa using hcv
          · intro x hx
            exact hcur x (List.mem_reverse.mp hx)
        · exact ih [] (by simp) r hr

theorem runsOf_runs (p : Char → Bool) (l : List Char) :
    ∀ r ∈ runsOf p l, r ≠ [] ∧ ∀ c ∈ r, p c :=
  runsGo_runs p l [] (by simp)

/-- Consuming a word all of whose characters satisfy `p` accumulates it. -/
theorem runsGo_word (p : Char → Bool) :
    ∀ (w : List Char), (∀ c ∈ w, p c) → ∀ (cur l0 : List Char),
      runsGo p cur (w ++ l0) = runsGo p (w.reverse ++ cur) l0 := by
  intro w
  induction w with
  | nil => intro _ cur l0; simp
  | cons c w ih =>
    intro hall cur l0
    have hc : p c := hall c (List.mem_cons_self c w)
    rw [List.cons_append]
    rw [show runsGo p cur (c :: (w ++ l0)) = runsGo p (c :: cur) (w ++ l0) by
      simp [runsGo, hc]]
    rw [ih (fun x hx => hall x (List.mem_cons_of_mem c hx)) (c :: cur) l0]
    simp [List.reverse_cons, List.append_assoc]

/-- Splitting a space-join of non-empty whitespace-free words recovers the
words. -/
theorem pyWords_joinSpace :
    ∀ rs : List (List Char),
      (∀ r ∈ rs, r ≠ [] ∧ ∀ c ∈ r, ¬ isPySpace c) →
      pyWords (joinSpace rs) = rs := by
  intro rs
  induction rs with
  | nil => intro _; rfl
  | cons w ws ih =>
    intro h
    have hw := h w (List.mem_cons_self w ws)
    have hwp : ∀ c ∈ w, (!isPySpace c) = true := by
      intro c hc
      simp [hw.2 c hc]
    cases ws with
    | nil =>
      show runsGo (fun c => !isPySpace c) [] (joinSpace [w]) = [w]
      have : joinSpace [w] = w ++ [] := by simp [joinSpace]
      rw [this, runsGo_word _ w hwp [] []]
      simp only [runsGo, List.append_nil]
      rw [if_neg (by simpa using hw.1)]
      simp
    | cons w2 ws2 =>
      show runsGo (fun c => !isPySpace c) [] (joinSpace (w :: w2 :: ws2)) = _
      have hj : joinSpace (w :: w2 :: ws2) = w ++ ' ' :: joinSpace (w2 :: ws2) := rfl
      rw [hj, runsGo_word _ w hwp [] (' ' :: joinSpace (w2 :: ws2))]
      simp only [runsGo, List.append_nil]
      rw [if_neg (by simp [isPySpace_space]), if_neg (by simpa using hw.1)]
      have := ih (fun r hr => h r (List.mem_cons_of_mem w hr))
      rw [List.reverse_reverse]
      exact congrArg (w :: ·) this

/-! ## Bounds on the similarity scores -/

theorem qmax_eq_max (a b : ℚ) : qmax a b = max a b := by
  unfold qmax
  rw [max_def]

theorem levScoreQ_nonneg (s1 s2 : List Char) (h : 0 < max s1.length s2.length) :
    0 ≤ levScoreQ s1 s2 := by
  unfold levScoreQ
  have hlev : levenshtein s1 s2 ≤ max s1.length s2.length := by
    rw [levenshtein_eq_levRec]
    exact levRec_le_max s1 s2
  have hm : (0 : ℚ) < ((max s1.length s2.length : ℕ) : ℚ) := by exact_mod_cast h
  have hdiv : (levenshtein s1 s2 : ℚ) / ((max s1.length s2.length : ℕ) : ℚ) ≤ 1 := by
    rw [div_le_one hm]
    exact_mod_cast hlev
  linarith

theorem levScoreQ_le_one (s1 s2 : List Char) : levScoreQ s1 s2 ≤ 1 := by
  unfold levScoreQ
  have hdiv : (0 : ℚ) ≤ (levenshtein s1 s2 : ℚ) / ((max s1.length s2.length : ℕ) : ℚ) := by
    positivity
  linarith

theorem foldl_qmax_le (f : List Char → ℚ) (c : ℚ) :
    ∀ (r : List (List Char)) (b : ℚ), b ≤ c → (∀ v ∈ r, f v ≤ c) →
      r.foldl (fun m v => qmax m (f v)) b ≤ c := by
  intro r
  induction r with
  | nil => intro b hb _; simpa using hb
  | cons v0 r ih =>
    intro b hb h
    simp only [List.foldl_cons]
    refine ih (qmax b (f v0)) ?_ fun v hv => h v (List.mem_cons_of_mem v0 hv)
    rw [qmax_eq_max]
    exact max_le hb (h v0 (List.mem_cons_self v0 r))

theorem le_foldl_qmax (f : List Char → ℚ) :
    ∀ (r : List (List Char)) (b : ℚ), b ≤ r.foldl (fun m v => qmax m (f v)) b := by
  intro r
  induction r with
  | nil => intro b; simp
  | cons v0 r ih =>
    intro b
    simp only [List.foldl_cons]
    refine le_trans ?_ (ih (qmax b (f v0)))
    rw [qmax_eq_max]
    exact le_max_left b (f v0)

theorem sum_map_nonneg (q : List (List Char)) (g : List Char → ℚ)
    (h : ∀ x ∈ q, 0 ≤ g x) : 0 ≤ (q.map g).sum := by
  induction q with
  | nil => simp
  | cons x q ih =>
    simp only [List.map_cons, List.sum_cons]
    have h1 := h x (List.mem_cons_self x q)
    have h2 := ih fun y hy => h y (List.mem_cons_of_mem x hy)
    linarith

theorem sum_map_le_length (q : List (List Char)) (g : List Char → ℚ)
    (h : ∀ x ∈ q, g x ≤ 1) : (q.map g).sum ≤ (q.length : ℚ) := by
  induction q with
  | nil => simp
  | cons x q ih =>
    simp only [List.map_cons, List.sum_cons, List.length_cons]
    have h1 := h x (List.mem_cons_self x q)
    have h2 := ih fun y hy => h y (List.mem_cons_of_mem x hy)
    push_cast
    linarith

/-- The guard appearing in `mongo_elkan_score` is equivalent to both token
sets containing the empty token. -/
theorem mongo_guard_iff (s1 s2 : List Char) :
    ([] ∈ (if (wordSet s2).length < (wordSet s1).length then wordSet s2 else wordSet s1) ∧
      [] ∈ (if (wordSet s2).length < (wordSet s1).length then wordSet s1 else wordSet s2)) ↔
    ([] ∈ wordSet s1 ∧ [] ∈ wordSet s2) := by
  split
  · exact and_comm
  · exact Iff.rfl

/-- In the defined region, the Monge-Elkan value lies in the unit interval. -/
theorem mongoElkanQ_mem_unit (s1 s2 : List Char)
    (hguard : ¬([] ∈ wordSet s1 ∧ [] ∈ wordSet s2)) :
    0 ≤ mongoElkanQ s1 s2 ∧ mongoElkanQ s1 s2 ≤ 1 := by
  unfold mongoElkanQ
  set t1 := wordSet s1 with ht1
  set t2 := wordSet s2 with ht2
  set q := if t2.length < t1.length then t2 else t1 with hq
  set r := if t2.length < t1.length then t1 else t2 with hr
  have hqr : ¬([] ∈ q ∧ [] ∈ r) := by
    rw [hq, hr]
    intro hcon
    exact hguard ((mongo_guard_iff s1 s2).mp hcon)
  have hrne : r ≠ [] := by
    rw [hr]
    split <;> [exact wordSet_ne_nil s1; exact wordSet_ne_nil s2]
  have hrlen : 0 < r.length := List.length_pos.mpr hrne
  have hqlen : q.length ≤ r.length := by
    rw [hq, hr]
    split <;> omega
  have hpair : ∀ w ∈ q, ∀ v ∈ r, 0 < max w.length v.length := by
    intro w hw v hv
    by_contra hcon
    push_neg at hcon
    have hw0 : w = [] := by
      have := le_trans (le_max_left w.length v.length) hcon
      exact List.length_eq_zero.mp (by omega)
    have hv0 : v = [] := by
      have := le_trans (le_max_right w.length v.length) hcon
      exact List.length_eq_zero.mp (by omega)
    exact hqr ⟨hw0 ▸ hw, hv0 ▸ hv⟩
  have hfold : ∀ w ∈ q,
      0 ≤ r.foldl (fun m v => qmax m (levScoreQ w v)) 0 ∧
      r.foldl (fun m v => qmax m (levScoreQ w v)) 0 ≤ 1 := by
    intro w hw
    constructor
    · exact le_foldl_qmax (levScoreQ w) r 0
    · exact foldl_qmax_le (levScoreQ w) 1 r 0 zero_le_one
        fun v _ => levScoreQ_le_one w v
  have hsum0 : 0 ≤ (q.map (fun w => r.foldl (fun m v => qmax m (levScoreQ w v)) 0)).sum :=
    sum_map_nonneg q _ fun w hw => (hfold w hw).1
  have hsum1 : (q.map (fun w => r.foldl (fun m v => qmax m (levScoreQ w v)) 0)).sum ≤
      (q.length : ℚ) :=
    sum_map_le_length q _ fun w hw => (hfold w hw).2
  have hrQ : (0 : ℚ) < ((r.length : ℕ) : ℚ) := by exact_mod_cast hrlen
  constructor
  · positivity
  · rw [div_le_one hrQ]
    refine le_trans hsum1 ?_
    exact_mod_cast hqlen

/-- `mongo_elkan_score` returns a value exactly when at least one input has a
non-whitespace character; in that case the value is `mongoElkanQ`. -/
theorem mongo_elkan_isSome_iff (s1 s2 : List Char) :
    (mongo_elkan_score s1 s2).isSome ↔
      ¬((∀ c ∈ s1, isPySpace c) ∧ (∀ c ∈ s2, isPySpace c)) := by
  unfold mongo_elkan_score
  constructor
  · intro h hall
    have hg : [] ∈ wordSet s1 ∧ [] ∈ wordSet s2 :=
      ⟨(nil_mem_wordSet_iff s1).mpr hall.1, (nil_mem_wordSet_iff s2).mpr hall.2⟩
    rw [if_pos ((mongo_guard_iff s1 s2).mpr hg)] at h
    simp at h
  · intro h
    rw [if_neg ?_]
    · simp
    · intro hcon
      have hg := (mongo_guard_iff s1 s2).mp hcon
      exact h ⟨(nil_mem_wordSet_iff s1).mp hg.1, (nil_mem_wordSet_iff s2).mp hg.2⟩

/-- In the defined region `mongo_elkan_score` returns the Monge-Elkan value
(guard phrased through the token sets). -/
theorem mongo_elkan_eq_some_guard (s1 s2 : List Char)
    (h : ¬([] ∈ wordSet s1 ∧ [] ∈ wordSet s2)) :
    mongo_elkan_score s1 s2 = some (mongoElkanQ s1 s2) := by
  unfold mongo_elkan_score
  rw [if_neg ?_]
  intro hcon
  exact h ((mongo_guard_iff s1 s2).mp hcon)

/-- In the defined region `mongo_elkan_score` returns the Monge-Elkan value
(guard phrased through whitespace content). -/
theorem mongo_elkan_eq_some (s1 s2 : List Char)
    (h : ¬((∀ c ∈ s1, isPySpace c) ∧ (∀ c ∈ s2, isPySpace c))) :
    mongo_elkan_score s1 s2 = some (mongoElkanQ s1 s2) := by
  refine mongo_elkan_eq_some_guard s1 s2 ?_
  intro hcon
  exact h ⟨(nil_mem_wordSet_iff s1).mp hcon.1, (nil_mem_wordSet_iff s2).mp hcon.2⟩

/-! ## Characterisations of the partition lengths and composite score -/

theorem not_isPySpace_of_isEnglish {c : Char} (h : isEnglish c = true) :
    ¬ isPySpace c = true := by
  simp only [isEnglish, decide_eq_true_eq] at h
  simp only [isPySpace, isWsNat, decide_eq_true_eq]
  omega

theorem chiPart_eq_filter (s : List Char) : chiPart s = s.filter isChinese :=
  runsOf_flatten isChinese s

/-- Splitting the extracted English part recovers the runs of letters. -/
theorem pyWords_engPart (s : List Char) :
    pyWords (engPart s) = runsOf isEnglish s := by
  refine pyWords_joinSpace (runsOf isEnglish s) ?_
  intro r hr
  have h := runsOf_runs isEnglish s r hr
  exact ⟨h.1, fun c hc => not_isPySpace_of_isEnglish (h.2 c hc)⟩

theorem length_filter_pos_iff (p : Char → Bool) (l : List Char) :
    0 < (l.filter p).length ↔ ∃ c ∈ l, p c := by
  rw [List.length_pos_iff_exists_mem]
  constructor
  · rintro ⟨a, ha⟩
    exact ⟨a, (List.mem_filter.mp ha).1, (List.mem_filter.mp ha).2⟩
  · rintro ⟨a, ha, hp⟩
    exact ⟨a, List.mem_filter.mpr ⟨ha, hp⟩⟩

theorem runsOf_ne_nil_iff (p : Char → Bool) (l : List Char) :
    runsOf p l ≠ [] ↔ ∃ c ∈ l, p c := by
  rw [ne_eq, runsOf_eq_nil_iff]
  push_neg
  simp

theorem lenChi_pos_iff (s1 s2 : List Char) :
    0 < lenChi s1 s2 ↔ (∃ c ∈ s1, isChinese c) ∨ (∃ c ∈ s2, isChinese c) := by
  unfold lenChi
  rw [chiPart_eq_filter, chiPart_eq_filter]
  rw [← length_filter_pos_iff isChinese s1, ← length_filter_pos_iff isChinese s2]
  omega

theorem lenEng_pos_iff (s1 s2 : List Char) :
    0 < lenEng s1 s2 ↔ (∃ c ∈ s1, isEnglish c) ∨ (∃ c ∈ s2, isEnglish c) := by
  unfold lenEng
  rw [pyWords_engPart, pyWords_engPart]
  rw [← runsOf_ne_nil_iff isEnglish s1, ← runsOf_ne_nil_iff isEnglish s2]
  rw [ne_eq, ne_eq, ← List.length_eq_zero, ← List.length_eq_zero]
  omega

/-- If some English part has a word then that part is not all whitespace. -/
theorem eng_not_all_ws (s1 s2 : List Char) (hn : 0 < lenEng s1 s2) :
    ¬((∀ c ∈ engPart s1, isPySpace c) ∧ (∀ c ∈ engPart s2, isPySpace c)) := by
  unfold lenEng at hn
  rintro ⟨h1, h2⟩
  have e1 : pyWords (engPart s1) = [] := by
    unfold pyWords
    rw [runsOf_eq_nil_iff]
    intro c hc
    simpa using h1 c hc
  have e2 : pyWords (engPart s2) = [] := by
    unfold pyWords
    rw [runsOf_eq_nil_iff]
    intro c hc
    simpa using h2 c hc
  rw [e1, e2] at hn
  simp at hn

/-- When the English contribution is active, its Monge-Elkan score is
defined. -/
theorem mongo_eng_some (s1 s2 : List Char) (hn : 0 < lenEng s1 s2) :
    mongo_elkan_score (engPart s1) (engPart s2) =
      some (mongoElkanQ (engPart s1) (engPart s2)) :=
  mongo_elkan_eq_some _ _ (eng_not_all_ws s1 s2 hn)

theorem eng_guard (s1 s2 : List Char) (hn : 0 < lenEng s1 s2) :
    ¬([] ∈ wordSet (engPart s1) ∧ [] ∈ wordSet (engPart s2)) := by
  rintro ⟨h1, h2⟩
  exact eng_not_all_ws s1 s2 hn
    ⟨(nil_mem_wordSet_iff _).mp h1, (nil_mem_wordSet_iff _).mp h2⟩

/-- When the Chinese contribution is active, its Levenshtein score is
defined. -/
theorem lev_chi_some (s1 s2 : List Char) (hm : 0 < lenChi s1 s2) :
    levenshtein_score (chiPart s1) (chiPart s2) =
      some (levScoreQ (chiPart s1) (chiPart s2)) := by
  unfold levenshtein_score
  rw [if_neg ?_]
  show ¬ max (chiPart s1).length (chiPart s2).length = 0
  have : lenChi s1 s2 = max (chiPart s1).length (chiPart s2).length := rfl
  omega

/-- The composite score evaluates to the weighted combination whenever at
least one partition is present. -/
theorem string_similarity_eq (s1 s2 : List Char)
    (h : 0 < lenChi s1 s2 + lenEng s1 s2) :
    string_similarity_score s1 s2 = some
      (((if 0 < lenChi s1 s2 then levScoreQ (chiPart s1) (chiPart s2) else 0) *
          (lenChi s1 s2 : ℚ) +
        (if 0 < lenEng s1 s2 then mongoElkanQ (engPart s1) (engPart s2) else 0) *
          (lenEng s1 s2 : ℚ)) /
        ((lenChi s1 s2 : ℚ) + (lenEng s1 s2 : ℚ))) := by
  unfold string_similarity_score
  by_cases hm : 0 < lenChi s1 s2 <;> by_cases hn : 0 < lenEng s1 s2
  · rw [if_pos hm, if_pos hn, lev_chi_some s1 s2 hm, mongo_eng_some s1 s2 hn]
    rw [Option.some_bind, Option.some_bind, if_neg (by omega)]
    rw [if_pos hm, if_pos hn]
  · rw [if_pos hm, if_neg hn, lev_chi_some s1 s2 hm]
    rw [Option.some_bind, Option.some_bind, if_neg (by omega)]
    rw [if_pos hm, if_neg hn]
  · rw [if_neg hm, if_pos hn, mongo_eng_some s1 s2 hn]
    rw [Option.some_bind, Option.some_bind, if_neg (by omega)]
    rw [if_neg hm, if_pos hn]
  · omega

/-- With no Chinese and no English content, the composite raises. -/
theorem string_similarity_none (s1 s2 : List Char)
    (h : lenChi s1 s2 + lenEng s1 s2 = 0) :
    string_similarity_score s1 s2 = none := by
  unfold string_similarity_score
  rw [if_neg (by omega), if_neg (by omega)]
  rw [Option.some_bind, Option.some_bind, if_pos h]

/-- Arithmetic fact: a convex combination of unit-interval values with
natural-number weights stays in the unit interval. -/
theorem combo_unit (sc se : ℚ) (m n : ℕ) (hmn : 0 < m + n)
    (hsc0 : 0 ≤ sc) (hsc1 : sc ≤ 1) (hse0 : 0 ≤ se) (hse1 : se ≤ 1) :
    0 ≤ (sc * (m : ℚ) + se * (n : ℚ)) / ((m : ℚ) + (n : ℚ)) ∧
      (sc * (m : ℚ) + se * (n : ℚ)) / ((m : ℚ) + (n : ℚ)) ≤ 1 := by
  have hm0 : (0 : ℚ) ≤ (m : ℚ) := by positivity
  have hn0 : (0 : ℚ) ≤ (n : ℚ) := by positivity
  have hden : (0 : ℚ) < (m : ℚ) + (n : ℚ) := by
    have : (0 : ℚ) < ((m + n : ℕ) : ℚ) := by exact_mod_cast hmn
    push_cast at this
    linarith
  constructor
  · apply div_nonneg _ (le_of_lt hden)
    have h1 : 0 ≤ sc * (m : ℚ) := mul_nonneg hsc0 hm0
    have h2 : 0 ≤ se * (n : ℚ) := mul_nonneg hse0 hn0
    linarith
  · rw [div_le_one hden]
    have h1 : sc * (m : ℚ) ≤ (m : ℚ) := mul_le_of_le_one_left hm0 hsc1
    have h2 : se * (n : ℚ) ≤ (n : ℚ) := mul_le_of_le_one_left hn0 hse1
    linarith

/-! ## The claims -/

/-- C1, counterexample: on two empty strings `string_similarity_score` raises
`ZeroDivisionError` (modelled as `none`) instead of returning `0.0`, so the
similarity-scoring core does not have a defined numeric result for every
input. -/
theorem similarity_empty_pair_raises : string_similarity_score [] [] = none := by
  decide

/-- C1 (amended): each scoring function returns a defined numeric value
exactly on its defined region: `levenshtein_score` iff at least one input is
non-empty, `mongo_elkan_score` iff at least one input contains a
non-whitespace character, and `string_similarity_score` iff at least one
input contains a CJK ideograph or an ASCII letter.  Outside these regions the
functions raise (return `none`); in particular they do not raise on any other
input. -/
theorem scoring_definedness (s1 s2 : List Char) :
    ((levenshtein_score s1 s2).isSome ↔ (s1 ≠ [] ∨ s2 ≠ [])) ∧
    ((mongo_elkan_score s1 s2).isSome ↔
      ¬((∀ c ∈ s1, isPySpace c) ∧ (∀ c ∈ s2, isPySpace c))) ∧
    ((string_similarity_score s1 s2).isSome ↔
      ((∃ c ∈ s1, isChinese c ∨ isEnglish c) ∨ (∃ c ∈ s2, isChinese c ∨ isEnglish c))) := by
  have hmx : max s1.length s2.length = 0 ↔ (s1 = [] ∧ s2 = []) := by
    constructor
    · intro h
      constructor <;> rw [← List.length_eq_zero] <;> omega
    · rintro ⟨h1, h2⟩
      subst h1; subst h2; rfl
  refine ⟨?_, mongo_elkan_isSome_iff s1 s2, ?_⟩
  · unfold levenshtein_score
    by_cases h : max s1.length s2.length = 0
    · rw [if_pos h]
      simp only [Option.isSome_none, Bool.false_eq_true, false_iff]
      push_neg
      exact hmx.mp h
    · rw [if_neg h]
      simp only [Option.isSome_some, true_iff]
      by_contra hcon
      push_neg at hcon
      exact h (hmx.mpr hcon)
  · have hiff : (0 < lenChi s1 s2 + lenEng s1 s2) ↔
        ((∃ c ∈ s1, isChinese c ∨ isEnglish c) ∨
          (∃ c ∈ s2, isChinese c ∨ isEnglish c)) := by
      have h1 := lenChi_pos_iff s1 s2
      have h2 := lenEng_pos_iff s1 s2
      constructor
      · intro h
        have hor : 0 < lenChi s1 s2 ∨ 0 < lenEng s1 s2 := by omega
        rcases hor with h | h
        · rcases h1.mp h with ⟨c, hc, hp⟩ | ⟨c, hc, hp⟩
          · exact Or.inl ⟨c, hc, Or.inl hp⟩
          · exact Or.inr ⟨c, hc, Or.inl hp⟩
        · rcases h2.mp h with ⟨c, hc, hp⟩ | ⟨c, hc, hp⟩
          · exact Or.inl ⟨c, hc, Or.inr hp⟩
          · exact Or.inr ⟨c, hc, Or.inr hp⟩
      · intro h
        rcases h with ⟨c, hc, hp | hp⟩ | ⟨c, hc, hp | hp⟩
        · have := h1.mpr (Or.inl ⟨c, hc, hp⟩); omega
        · have := h2.mpr (Or.inl ⟨c, hc, hp⟩); omega
        · have := h1.mpr (Or.inr ⟨c, hc, hp⟩); omega
        · have := h2.mpr (Or.inr ⟨c, hc, hp⟩); omega
    rw [← hiff]
    constructor
    · intro h
      by_contra hcon
      rw [string_similarity_none s1 s2 (by omega)] at h
      simp at h
    · intro h
      rw [string_similarity_eq s1 s2 h]
      simp

/-- Witness for C1 at concrete inputs. -/
theorem scoring_definedness_witness :
    (levenshtein_score ("A".toList) []).isSome ∧
    (mongo_elkan_score ("A".toList) ("B".toList)).isSome ∧
    (string_similarity_score ("A".toList) []).isSome := by
  refine ⟨?_, ?_, ?_⟩
  · exact (scoring_definedness ("A".toList) []).1.mpr (Or.inl (by decide))
  · exact (scoring_definedness ("A".toList) ("B".toList)).2.1.mpr (by decide)
  · exact (scoring_definedness ("A".toList) []).2.2.mpr (Or.inl (by decide))

/-- C2: with at least one partition present, `string_similarity_score` is the
weighted combination `(score_chi*len_chi + score_eng*len_eng) / (len_chi +
len_eng)` where `score_chi` is the Levenshtein similarity of the Chinese
partitions when `len_chi > 0` (else `0.0`) and `score_eng` is the
token-alignment score of the English partitions when `len_eng > 0` (else
`0.0`); consequently, when `len_chi = 0` the result is exactly the
token-alignment score of the English partitions. -/
theorem string_similarity_formula :
    (∀ s1 s2 : List Char, 0 < lenChi s1 s2 + lenEng s1 s2 →
      string_similarity_score s1 s2 = some
        (((if 0 < lenChi s1 s2 then levScoreQ (chiPart s1) (chiPart s2) else 0) *
            (lenChi s1 s2 : ℚ) +
          (if 0 < lenEng s1 s2 then mongoElkanQ (engPart s1) (engPart s2) else 0) *
            (lenEng s1 s2 : ℚ)) /
          ((lenChi s1 s2 : ℚ) + (lenEng s1 s2 : ℚ)))) ∧
    (∀ s1 s2 : List Char, lenChi s1 s2 = 0 → 0 < lenEng s1 s2 →
      string_similarity_score s1 s2 =
        some (mongoElkanQ (engPart s1) (engPart s2))) := by
  refine ⟨fun s1 s2 h => string_similarity_eq s1 s2 h, fun s1 s2 hm hn => ?_⟩
  rw [string_similarity_eq s1 s2 (by omega)]
  rw [if_neg (by omega), if_pos hn, hm]
  have hn2 : ((lenEng s1 s2 : ℕ) : ℚ) ≠ 0 := by
    have : (0 : ℚ) < ((lenEng s1 s2 : ℕ) : ℚ) := by exact_mod_cast hn
    linarith
  congr 1
  push_cast
  rw [zero_mul, zero_add, zero_add, mul_div_assoc, div_self hn2, mul_one]

/-- Witness for C2 at a concrete input with no Chinese content. -/
theorem string_similarity_formula_witness :
    string_similarity_score ("AB".toList) ("AC".toList) =
      some (mongoElkanQ (engPart ("AB".toList)) (engPart ("AC".toList))) :=
  string_similarity_formula.2 ("AB".toList) ("AC".toList) (by decide) (by decide)

/-- C3: `levenshtein` computes the classic Levenshtein edit distance: its
value is realised by a chain of single-character insertions, deletions and
substitutions (unit cost each) transforming `s1` into `s2`, and no shorter
chain exists; in particular `levenshtein s "" = len s` for every `s`, and
`levenshtein "kitten" "sitting" = 3`. -/
theorem levenshtein_is_classic_distance :
    (∀ s1 s2 : List Char, EditChain (levenshtein s1 s2) s1 s2 ∧
      ∀ n : ℕ, EditChain n s1 s2 → levenshtein s1 s2 ≤ n) ∧
    (∀ s : List Char, levenshtein s [] = s.length) ∧
    levenshtein ("kitten".toList) ("sitting".toList) = 3 := by
  refine ⟨fun s1 s2 => ⟨?_, ?_⟩, fun s => ?_, by decide⟩
  · rw [levenshtein_eq_levRec]
    exact editChain_levRec s1 s2
  · intro n hn
    rw [levenshtein_eq_levRec]
    exact editChain_levRec_le hn
  · rw [levenshtein_eq_levRec, levRec_nil_right]

/-- Witness for C3 at a concrete input. -/
theorem levenshtein_is_classic_distance_witness :
    EditChain (levenshtein ("ab".toList) ("b".toList)) ("ab".toList) ("b".toList) ∧
    levenshtein ("ab".toList) ("b".toList) ≤ 1 := by
  refine ⟨(levenshtein_is_classic_distance.1 ("ab".toList) ("b".toList)).1, ?_⟩
  refine (levenshtein_is_classic_distance.1 ("ab".toList) ("b".toList)).2 1 ?_
  have h := (levenshtein_is_classic_distance.1 ("ab".toList) ("b".toList)).1
  rw [show levenshtein ("ab".toList) ("b".toList) = 1 by decide] at h
  exact h

/-- C6: the Levenshtein distance is symmetric in its argument order. -/
theorem levenshtein_symm (a b : List Char) : levenshtein a b = levenshtein b a := by
  rw [levenshtein_eq_levRec, levenshtein_eq_levRec, levRec_symm]

/-- C7: the Levenshtein distance satisfies the triangle inequality. -/
theorem levenshtein_triangle (a b c : List Char) :
    levenshtein a c ≤ levenshtein a b + levenshtein b c := by
  rw [levenshtein_eq_levRec, levenshtein_eq_levRec, levenshtein_eq_levRec]
  exact editChain_levRec_le ((editChain_levRec a b).trans (editChain_levRec b c))

/-- C10: `get_days_from_today` never raises: a parse failure is caught and
mapped to the not-a-number sentinel (`none`), distinguishable from every
integer day count, and a successful parse yields the whole number of days
(floor of the difference) from the parsed date to the current time. -/
theorem get_days_spec :
    (∀ (parsed : Option ℚ) (now : ℚ),
      (get_days_from_today parsed now).isSome = parsed.isSome) ∧
    (∀ now : ℚ, get_days_from_today none now = none) ∧
    (∀ (d now : ℚ), get_days_from_today (some d) now = some ⌊now - d⌋) ∧
    (∀ (n : ℤ) (now : ℚ), get_days_from_today none now ≠ some n) := by
  refine ⟨fun parsed now => ?_, fun now => rfl, fun d now => rfl,
    fun n now => by simp [get_days_from_today]⟩
  cases parsed <;> rfl

/-- Witness for C10 at concrete inputs. -/
theorem get_days_spec_witness :
    get_days_from_today (some 1) 3 = some 2 ∧
    get_days_from_today none 3 = none := by
  constructor
  · rw [get_days_spec.2.2.1 1 3]
    norm_num
  · exact get_days_spec.2.1 3

/-- C5: `extract_chinese_english_parts` returns the separator-free
concatenation (in input order) of the maximal CJK runs — equivalently, the
subsequence of CJK ideographs — together with the single-space join of the
maximal ASCII-letter runs, all other characters dropped; splitting the
English part on whitespace recovers exactly those letter runs; and
`extract_chinese_english_parts "Hello世界123" = ("世界", "Hello")`. -/
theorem extract_parts_spec :
    (∀ text : List Char,
      (extract_chinese_english_parts text).1 = text.filter isChinese ∧
      (extract_chinese_english_parts text).2 = joinSpace (runsOf isEnglish text) ∧
      pyWords (extract_chinese_english_parts text).2 = runsOf isEnglish text) ∧
    extract_chinese_english_parts ("Hello世界123".toList) =
      ("世界".toList, "Hello".toList) := by
  refine ⟨fun text => ⟨?_, rfl, ?_⟩, by decide⟩
  · exact chiPart_eq_filter text
  · exact pyWords_engPart text

/-- C4: `mongo_elkan_score` normalises both inputs, forms their token sets,
lets the smaller set (the first on ties) query the larger, sums each query
token's maximum Levenshtein similarity over the reference set, and divides by
the reference set's size; in particular
`mongo_elkan_score "NEW YORK" "NEW YORK CITY" = 2/3`. -/
theorem mongo_elkan_formula :
    (∀ s1 s2 : List Char, ¬([] ∈ wordSet s1 ∧ [] ∈ wordSet s2) →
      mongo_elkan_score s1 s2 = some
        (((if (wordSet s1).length ≤ (wordSet s2).length then wordSet s1
            else wordSet s2).map
          (fun w => (if (wordSet s1).length ≤ (wordSet s2).length then wordSet s2
              else wordSet s1).foldl (fun m v => qmax m (levScoreQ w v)) 0)).sum /
        (((if (wordSet s1).length ≤ (wordSet s2).length then wordSet s2
            else wordSet s1).length : ℕ) : ℚ)) ∧
      (if (wordSet s1).length ≤ (wordSet s2).length then wordSet s1
          else wordSet s2).length ≤
        (if (wordSet s1).length ≤ (wordSet s2).length then wordSet s2
          else wordSet s1).length) ∧
    mongo_elkan_score ("NEW YORK".toList) ("NEW YORK CITY".toList) = some (2/3) := by
  constructor
  · intro s1 s2 hguard
    constructor
    · rw [mongo_elkan_eq_some_guard s1 s2 hguard]
      congr 1
      unfold mongoElkanQ
      split_ifs with h1 h2 h2 <;> first | rfl | omega
    · split_ifs with h1 <;> omega
  · have h1 : wordSet ("NEW YORK".toList) = [['N','E','W'], ['Y','O','R','K']] := by
      decide
    have h2 : wordSet ("NEW YORK CITY".toList) =
        [['N','E','W'], ['Y','O','R','K'], ['C','I','T','Y']] := by decide
    have f1 : levScoreQ ['N','E','W'] ['N','E','W'] = 1 := by
      norm_num [levScoreQ, show levenshtein ['N','E','W'] ['N','E','W'] = 0 by decide]
    have f2 : levScoreQ ['N','E','W'] ['Y','O','R','K'] = 0 := by
      norm_num [levScoreQ,
        show levenshtein ['N','E','W'] ['Y','O','R','K'] = 4 by decide]
    have f3 : levScoreQ ['N','E','W'] ['C','I','T','Y'] = 0 := by
      norm_num [levScoreQ,
        show levenshtein ['N','E','W'] ['C','I','T','Y'] = 4 by decide]
    have f4 : levScoreQ ['Y','O','R','K'] ['N','E','W'] = 0 := by
      norm_num [levScoreQ,
        show levenshtein ['Y','O','R','K'] ['N','E','W'] = 4 by decide]
    have f5 : levScoreQ ['Y','O','R','K'] ['Y','O','R','K'] = 1 := by
      norm_num [levScoreQ,
        show levenshtein ['Y','O','R','K'] ['Y','O','R','K'] = 0 by decide]
    have f6 : levScoreQ ['Y','O','R','K'] ['C','I','T','Y'] = 0 := by
      norm_num [levScoreQ,
        show levenshtein ['Y','O','R','K'] ['C','I','T','Y'] = 4 by decide]
    unfold mongo_elkan_score mongoElkanQ
    rw [h1, h2]
    norm_num [qmax, f1, f2, f3, f4, f5, f6]
    rintro (h | h) _ <;> simp at h

/-- Witness for C4 at a concrete input. -/
theorem mongo_elkan_formula_witness :
    mongo_elkan_score ("A".toList) ("B C".toList) = some
      (((if (wordSet ("A".toList)).length ≤ (wordSet ("B C".toList)).length then
          wordSet ("A".toList) else wordSet ("B C".toList)).map
        (fun w => (if (wordSet ("A".toList)).length ≤ (wordSet ("B C".toList)).length
            then wordSet ("B C".toList) else wordSet ("A".toList)).foldl
          (fun m v => qmax m (levScoreQ w v)) 0)).sum /
      (((if (wordSet ("A".toList)).length ≤ (wordSet ("B C".toList)).length then
          wordSet ("B C".toList) else wordSet ("A".toList)).length : ℕ) : ℚ)) :=
  (mongo_elkan_formula.1 ("A".toList) ("B C".toList) (by decide)).1

/-- C8, counterexample: on equal-size token sets no swap occurs and the score
depends on the argument order: `mongo_elkan_score "AB XYZAB" "AA AB" = 7/10`
while `mongo_elkan_score "AA AB" "AB XYZAB" = 3/4`. -/
theorem mongo_elkan_asymmetric_on_ties :
    mongo_elkan_score ("AB XYZAB".toList) ("AA AB".toList) = some (7/10) ∧
    mongo_elkan_score ("AA AB".toList) ("AB XYZAB".toList) = some (3/4) := by
  have h1 : wordSet ("AB XYZAB".toList) = [['A','B'], ['X','Y','Z','A','B']] := by
    decide
  have h2 : wordSet ("AA AB".toList) = [['A','A'], ['A','B']] := by decide
  have f1 : levScoreQ ['A','B'] ['A','A'] = 1/2 := by
    norm_num [levScoreQ, show levenshtein ['A','B'] ['A','A'] = 1 by decide]
  have f2 : levScoreQ ['A','B'] ['A','B'] = 1 := by
    norm_num [levScoreQ, show levenshtein ['A','B'] ['A','B'] = 0 by decide]
  have f3 : levScoreQ ['X','Y','Z','A','B'] ['A','A'] = 1/5 := by
    norm_num [levScoreQ,
      show levenshtein ['X','Y','Z','A','B'] ['A','A'] = 4 by decide]
  have f4 : levScoreQ ['X','Y','Z','A','B'] ['A','B'] = 2/5 := by
    norm_num [levScoreQ,
      show levenshtein ['X','Y','Z','A','B'] ['A','B'] = 3 by decide]
  have f5 : levScoreQ ['A','A'] ['A','B'] = 1/2 := by
    norm_num [levScoreQ, show levenshtein ['A','A'] ['A','B'] = 1 by decide]
  have f6 : levScoreQ ['A','A'] ['X','Y','Z','A','B'] = 1/5 := by
    norm_num [levScoreQ,
      show levenshtein ['A','A'] ['X','Y','Z','A','B'] = 4 by decide]
  have f7 : levScoreQ ['A','B'] ['X','Y','Z','A','B'] = 2/5 := by
    norm_num [levScoreQ,
      show levenshtein ['A','B'] ['X','Y','Z','A','B'] = 3 by decide]
  constructor
  · unfold mongo_elkan_score mongoElkanQ
    rw [h1, h2]
    norm_num [qmax, f1, f2, f3, f4]
    rintro (h | h) _ <;> simp at h
  · unfold mongo_elkan_score mongoElkanQ
    rw [h1, h2]
    norm_num [qmax, f5, f6, f2, f7]
    rintro (h | h) _ <;> simp at h

/-- C8 (amended): whenever the two token sets have different sizes, the
swap performed by `mongo_elkan_score` makes the result independent of the
argument order; symmetry can fail only on ties. -/
theorem mongo_elkan_symm_of_card_ne (s1 s2 : List Char)
    (h : (wordSet s1).length ≠ (wordSet s2).length) :
    mongo_elkan_score s1 s2 = mongo_elkan_score s2 s1 := by
  unfold mongo_elkan_score mongoElkanQ
  rcases Nat.lt_or_ge (wordSet s1).length (wordSet s2).length with hlt | hge
  · have e1 : ¬ ((wordSet s2).length < (wordSet s1).length) := by omega
    simp only [if_neg e1, if_pos hlt]
  · have e2 : (wordSet s2).length < (wordSet s1).length := by omega
    have e3 : ¬ ((wordSet s1).length < (wordSet s2).length) := by omega
    simp only [if_pos e2, if_neg e3]

/-- Witness for C8's amended statement at a concrete input. -/
theorem mongo_elkan_symm_of_card_ne_witness :
    mongo_elkan_score ("A".toList) ("B C".toList) =
      mongo_elkan_score ("B C".toList) ("A".toList) :=
  mongo_elkan_symm_of_card_ne ("A".toList) ("B C".toList) (by decide)

/-- C9, counterexample: on two empty strings the composite score raises
instead of producing a value in the unit interval, so it does not lie in
`[0, 1]` for every pair of strings. -/
theorem composite_score_empty_undefined :
    (string_similarity_score [] []).isSome = false := by decide

/-- C9 (amended): whenever `levenshtein_score` returns a value — exactly when
an input is non-empty — that value lies in `[0, 1]`, and whenever the
composite `string_similarity_score` returns a value it lies in `[0, 1]`. -/
theorem scores_unit_interval :
    (∀ (s1 s2 : List Char) (x : ℚ), levenshtein_score s1 s2 = some x →
      0 ≤ x ∧ x ≤ 1) ∧
    (∀ (s1 s2 : List Char) (x : ℚ), string_similarity_score s1 s2 = some x →
      0 ≤ x ∧ x ≤ 1) := by
  constructor
  · intro s1 s2 x hx
    unfold levenshtein_score at hx
    by_cases h : max s1.length s2.length = 0
    · rw [if_pos h] at hx
      exact Option.noConfusion hx
    · rw [if_neg h, Option.some.injEq] at hx
      subst hx
      exact ⟨levScoreQ_nonneg s1 s2 (by omega), levScoreQ_le_one s1 s2⟩
  · intro s1 s2 x hx
    have hmn : 0 < lenChi s1 s2 + lenEng s1 s2 := by
      by_contra hcon
      rw [string_similarity_none s1 s2 (by omega)] at hx
      exact Option.noConfusion hx
    rw [string_similarity_eq s1 s2 hmn, Option.some.injEq] at hx
    subst hx
    have hsc : 0 ≤ (if 0 < lenChi s1 s2 then levScoreQ (chiPart s1) (chiPart s2) else 0) ∧
        (if 0 < lenChi s1 s2 then levScoreQ (chiPart s1) (chiPart s2) else 0) ≤ 1 := by
      by_cases hm : 0 < lenChi s1 s2
      · rw [if_pos hm]
        exact ⟨levScoreQ_nonneg _ _ hm, levScoreQ_le_one _ _⟩
      · rw [if_neg hm]
        norm_num
    have hse : 0 ≤ (if 0 < lenEng s1 s2 then mongoElkanQ (engPart s1) (engPart s2) else 0) ∧
        (if 0 < lenEng s1 s2 then mongoElkanQ (engPart s1) (engPart s2) else 0) ≤ 1 := by
      by_cases hn : 0 < lenEng s1 s2
      · rw [if_pos hn]
        exact mongoElkanQ_mem_unit _ _ (eng_guard s1 s2 hn)
      · rw [if_neg hn]
        norm_num
    exact combo_unit _ _ (lenChi s1 s2) (lenEng s1 s2) hmn hsc.1 hsc.2 hse.1 hse.2

/-- Witness for C9 at a concrete input. -/
theorem scores_unit_interval_witness : (0 : ℚ) ≤ 0 ∧ (0 : ℚ) ≤ 1 := by
  refine scores_unit_interval.1 ("a".toList) ("b".toList) 0 ?_
  have hl : max ("a".toList).length ("b".toList).length = 1 := by decide
  unfold levenshtein_score levScoreQ
  rw [hl, show levenshtein ("a".toList) ("b".toList) = 1 by decide,
    if_neg (by omega)]
  norm_num

end CrawlerUtils
